import Mathlib

/-!
# Ray tracing kernel (`src/ray.c`)

A shallow embedding of `ray.c`: ray evaluation, normal orientation, the
ray/sphere intersection, the two scattering models and the recursive colour
computation.

Arithmetic model.  The C code computes in `float`, and in `double` on the
last line of `hit_sphere`.  The definitions are written once, over any type
`F` that has the operations the code uses, and are read in two ways:

* at `F := f32`, the IEEE 754 binary32 numbers with every operation rounded to
  nearest, ties to even (each operation rounded to its own type, no fused
  operations), with NaN, infinities, signed zeros and subnormals: this is
  what the code computes;
* over a linearly ordered field (exact arithmetic, run at `F := ℚ`), with the
  library function `sqrt` a parameter whose defining property is assumed only
  where a theorem needs it: this is the formula the code implements.

A statement that rests on the control flow, on signs or on order alone is
proved for the field reading or for every arithmetic.  A statement that rests
on a field identity is proved for the exact formula and carried over to the
`float` code on the inputs where the `float` evaluation does not round;
where it fails in `float`, the failing input is evaluated in the binary32
model.

Output parameters of the C functions become return values, and the global
random generator becomes an explicit state `g : G` that is passed along.
-/

namespace Ray

/-! ## Data model -/

/-- Modelled from the spec: `vec3_t` (declared in a header that is not part
of `src/`), an ordered triple of components `e[0]`, `e[1]`, `e[2]`. -/
structure vec3_t (F : Type) where
  x : F
  y : F
  z : F
deriving DecidableEq, Repr

/-- Modelled from the spec: `point3_t`, a semantic alias of the triple type. -/
abbrev point3_t (F : Type) := vec3_t F

/-- Modelled from the spec: `color_t`, a semantic alias of the triple type. -/
abbrev color_t (F : Type) := vec3_t F

/-- The type `ray_t`, with the two fields `ray_init` assigns. -/
structure ray_t (F : Type) where
  orig : point3_t F
  dir : vec3_t F
deriving DecidableEq, Repr

/-- The type `hit_record_t`, with the fields `ray.c` reads and writes. -/
structure hit_record_t (F : Type) where
  p : point3_t F
  normal : vec3_t F
  front_face : Bool
deriving DecidableEq, Repr

/-- Modelled from the spec: the material tag of an object.  `ray_color`
names `LAMBERTIAN` and `METAL`; `UNKNOWN` stands for every other tag, which
reaches the `default:` label of the `switch`. -/
inductive Material where
  | LAMBERTIAN
  | METAL
  | UNKNOWN
deriving DecidableEq, Repr

/-- Modelled from the spec: `struct rt_obj`, a sphere with its material
data. -/
structure rt_obj (F : Type) where
  center : point3_t F
  radius : F
  material : Material
  albedo : color_t F
  metal_fuzzyness : F
deriving DecidableEq, Repr

/-! ## Binary floating point

The C type `float` is IEEE 754 binary32 and `double` is binary64.  A value is
a NaN, a signed infinity or a signed dyadic number `m * 2^e`; every operation
computes the exact result and rounds it to nearest, ties to even, in the
format of the operation.  Finite values are kept with an odd mantissa (zero
as `0 * 2^0`), so that equal numbers are equal terms. -/

/-- The number of binary digits of `n`. -/
def bitlen_go : Nat → Nat → Nat
  | 0, _ => 0
  | fuel + 1, n => if n = 0 then 0 else bitlen_go fuel (n / 2) + 1

/-- The number of binary digits of `n`; `0` for `0`. -/
def bitlen (n : Nat) : Nat := bitlen_go n n

/-- The number of trailing zero digits of `n`. -/
def trailing_zeros_go : Nat → Nat → Nat
  | 0, _ => 0
  | fuel + 1, n => if n % 2 = 1 then 0 else trailing_zeros_go fuel (n / 2) + 1

/-- The number of trailing zero binary digits of `n`; `0` for `0`. -/
def trailing_zeros (n : Nat) : Nat := if n = 0 then 0 else trailing_zeros_go n n

/-- The integer square root, digit by digit from bit `bit - 1` down. -/
def isqrt_go (n : Nat) : Nat → Nat → Nat
  | 0, acc => acc
  | bit + 1, acc =>
    let cand := acc + 2 ^ bit
    isqrt_go n bit (if cand * cand ≤ n then cand else acc)

/-- The integer square root: the greatest `r` with `r * r ≤ n`. -/
def isqrt (n : Nat) : Nat := isqrt_go n (bitlen n / 2 + 1) 0

/-- A floating-point datum: NaN, a signed infinity, or the finite number
`(-1)^neg * m * 2^e`. -/
inductive fp where
  | nan
  | inf (neg : Bool)
  | fin (neg : Bool) (m : Nat) (e : Int)
deriving DecidableEq, Repr

/-- A binary format: the precision in bits, the exponent of the last place
of the subnormal numbers, and the exponent of the last place of the largest
finite numbers. -/
structure fmt where
  prec : Nat
  emin : Int
  emax : Int

/-- The format of `float`: 24 bits, subnormals down to `2^-149`, largest
finite number `(2^24 - 1) * 2^104`. -/
def binary32 : fmt := ⟨24, -149, 104⟩

/-- The format of `double`: 53 bits, subnormals down to `2^-1074`, largest
finite number `(2^53 - 1) * 2^971`. -/
def binary64 : fmt := ⟨53, -1074, 971⟩

/-- The finite number `(-1)^neg * m * 2^e` with its mantissa made odd. -/
def fp.mk (neg : Bool) (m : Nat) (e : Int) : fp :=
  if m = 0 then fp.fin neg 0 0
  else fp.fin neg (m / 2 ^ trailing_zeros m) (e + trailing_zeros m)

/-- Rounding to nearest, ties to even: the datum of format `f` nearest to
`(-1)^neg * (m * 2^e + d)`, where `d` is `0`, or with `sticky` a positive
amount below `2^e` (a caller that sets `sticky` passes at least two digits
more than the precision).  A result beyond the largest finite number is the
infinity; a result below half the least subnormal is the signed zero. -/
def fround (f : fmt) (neg : Bool) (m : Nat) (e : Int) (sticky : Bool) : fp :=
  if m = 0 then fp.fin neg 0 0
  else
    let e1 := max (e + bitlen m - f.prec) f.emin
    if e1 ≤ e then
      if f.emax + f.prec < e + bitlen m then fp.inf neg else fp.mk neg m e
    else
      let sh := (e1 - e).toNat
      let q := m / 2 ^ sh
      let r := m % 2 ^ sh
      let half := 2 ^ (sh - 1)
      let up := decide (half < r) || (decide (r = half) && (sticky || decide (q % 2 = 1)))
      let q1 := if up then q + 1 else q
      if f.emax + f.prec < e1 + bitlen q1 then fp.inf neg else fp.mk neg q1 e1

/-- Negation: the sign is flipped. -/
def fneg : fp → fp
  | fp.nan => fp.nan
  | fp.inf s => fp.inf (!s)
  | fp.fin s m e => fp.fin (!s) m e

/-- Addition in format `f`. -/
def fadd (f : fmt) : fp → fp → fp
  | fp.nan, _ => fp.nan
  | _, fp.nan => fp.nan
  | fp.inf s, fp.inf t => if s = t then fp.inf s else fp.nan
  | fp.inf s, fp.fin _ _ _ => fp.inf s
  | fp.fin _ _ _, fp.inf t => fp.inf t
  | fp.fin s1 m1 e1, fp.fin s2 m2 e2 =>
    let e := min e1 e2
    let a := m1 * 2 ^ (e1 - e).toNat
    let b := m2 * 2 ^ (e2 - e).toNat
    if s1 = s2 then fround f s1 (a + b) e false
    else if a = b then fp.fin false 0 0
    else if b < a then fround f s1 (a - b) e false
    else fround f s2 (b - a) e false

/-- Subtraction in format `f`. -/
def fsub (f : fmt) (x y : fp) : fp := fadd f x (fneg y)

/-- Multiplication in format `f`. -/
def fmul (f : fmt) : fp → fp → fp
  | fp.nan, _ => fp.nan
  | _, fp.nan => fp.nan
  | fp.inf s, fp.inf t => fp.inf (xor s t)
  | fp.inf s, fp.fin t m _ => if m = 0 then fp.nan else fp.inf (xor s t)
  | fp.fin s m _, fp.inf t => if m = 0 then fp.nan else fp.inf (xor s t)
  | fp.fin s1 m1 e1, fp.fin s2 m2 e2 => fround f (xor s1 s2) (m1 * m2) (e1 + e2) false

/-- Division in format `f`: the quotient is developed to `prec + 2` digits or
more, and what is left over is the sticky digit. -/
def fdiv (f : fmt) : fp → fp → fp
  | fp.nan, _ => fp.nan
  | _, fp.nan => fp.nan
  | fp.inf _, fp.inf _ => fp.nan
  | fp.inf s, fp.fin t _ _ => fp.inf (xor s t)
  | fp.fin s _ _, fp.inf t => fp.fin (xor s t) 0 0
  | fp.fin s1 m1 e1, fp.fin s2 m2 e2 =>
    if m2 = 0 then (if m1 = 0 then fp.nan else fp.inf (xor s1 s2))
    else
      let k := f.prec + 2 + bitlen m2
      let n := m1 * 2 ^ k
      fround f (xor s1 s2) (n / m2) (e1 - e2 - k) (decide (n % m2 ≠ 0))

/-- Square root in format `f`: the root is developed to `prec + 2` digits or
more, and what is left over is the sticky digit. -/
def fsqrt (f : fmt) : fp → fp
  | fp.nan => fp.nan
  | fp.inf s => if s then fp.nan else fp.inf false
  | fp.fin s m e =>
    if m = 0 then fp.fin s 0 0
    else if s then fp.nan
    else
      let sh := 2 * (f.prec + 2) + (e % 2).toNat
      let n := m * 2 ^ sh
      let r := isqrt n
      fround f false r ((e - sh) / 2) (decide (r * r ≠ n))

/-- The comparison `x < y`: false when either side is a NaN; the two zeros
are equal. -/
def flt : fp → fp → Bool
  | fp.nan, _ => false
  | _, fp.nan => false
  | fp.inf s, fp.inf t => s && !t
  | fp.inf s, fp.fin _ _ _ => s
  | fp.fin _ _ _, fp.inf t => !t
  | fp.fin s1 m1 e1, fp.fin s2 m2 e2 =>
    let e := min e1 e2
    let a := m1 * 2 ^ (e1 - e).toNat
    let b := m2 * 2 ^ (e2 - e).toNat
    if s1 then (if s2 then decide (b < a) else decide (0 < a) || decide (0 < b))
    else (if s2 then false else decide (a < b))

/-- The rational value of a finite datum; `0` for NaN and the infinities. -/
def fp.val : fp → ℚ
  | fp.fin s m e => (if s then -(m : ℚ) else (m : ℚ)) * (2 : ℚ) ^ e
  | _ => 0

/-- Whether the datum is a NaN or has its sign bit set: a negative number, the
negative infinity or the negative zero. -/
def fp.nan_or_neg : fp → Bool
  | fp.nan => true
  | fp.inf s => s
  | fp.fin s _ _ => s

/-- Whether the datum is a NaN or has its sign bit clear: a positive number,
the positive infinity or the positive zero. -/
def fp.nan_or_pos : fp → Bool
  | fp.nan => true
  | fp.inf s => !s
  | fp.fin s _ _ => !s

/-- The C type `float`. -/
structure f32 where
  num : fp
deriving DecidableEq, Repr

/-- The C type `double`. -/
structure f64 where
  num : fp
deriving DecidableEq, Repr

instance : Add f32 := ⟨fun a b => ⟨fadd binary32 a.num b.num⟩⟩

instance : Sub f32 := ⟨fun a b => ⟨fsub binary32 a.num b.num⟩⟩

instance : Mul f32 := ⟨fun a b => ⟨fmul binary32 a.num b.num⟩⟩

instance : Div f32 := ⟨fun a b => ⟨fdiv binary32 a.num b.num⟩⟩

instance : Neg f32 := ⟨fun a => ⟨fneg a.num⟩⟩

instance : Zero f32 := ⟨⟨fp.fin false 0 0⟩⟩

instance : One f32 := ⟨⟨fp.fin false 1 0⟩⟩

instance : NatCast f32 := ⟨fun n => ⟨fround binary32 false n 0 false⟩⟩

instance : LT f32 := ⟨fun a b => flt a.num b.num = true⟩

instance f32.decidable_lt : DecidableRel (fun a b : f32 => a < b) :=
  fun a b => inferInstanceAs (Decidable (flt a.num b.num = true))

/-- The square root function `sqrtf` on `float`. -/
def f32.sqrt (x : f32) : f32 := ⟨fsqrt binary32 x.num⟩

/-- The conversion of a `float` to `double`, which is exact. -/
def f32.to_f64 (x : f32) : f64 := ⟨x.num⟩

/-- The conversion of a `double` to `float`, which rounds. -/
def f64.to_f32 : f64 → f32
  | ⟨fp.fin s m e⟩ => ⟨fround binary32 s m e false⟩
  | x => ⟨x.num⟩

/-- The square root function `sqrt` on `double`. -/
def f64.sqrt (x : f64) : f64 := ⟨fsqrt binary64 x.num⟩

/-- Subtraction on `double`. -/
def f64.sub (x y : f64) : f64 := ⟨fsub binary64 x.num y.num⟩

/-- Division on `double`. -/
def f64.div (x y : f64) : f64 := ⟨fdiv binary64 x.num y.num⟩

/-- The rational value of a finite `float`. -/
def f32.val (x : f32) : ℚ := x.num.val

section Primitives

variable {F : Type} [Add F] [Sub F] [Mul F] [Div F] [Neg F] [Zero F] [One F] [NatCast F]
  [LT F] [DecidableRel (fun a b : F => a < b)]

/-- Modelled from the spec: `vec3_add`, component-wise sum. -/
def vec3_add (u v : vec3_t F) : vec3_t F :=
  ⟨u.x + v.x, u.y + v.y, u.z + v.z⟩

/-- Modelled from the spec: `vec3_sub`, component-wise difference. -/
def vec3_sub (u v : vec3_t F) : vec3_t F :=
  ⟨u.x - v.x, u.y - v.y, u.z - v.z⟩

/-- Modelled from the spec: `vec3_scaling`, `scale(scalar, v)`. -/
def vec3_scaling (t : F) (v : vec3_t F) : vec3_t F :=
  ⟨t * v.x, t * v.y, t * v.z⟩

/-- Modelled from the spec: `vec3_negate`. -/
def vec3_negate (v : vec3_t F) : vec3_t F :=
  ⟨-v.x, -v.y, -v.z⟩

/-- Modelled from the spec: `vec3_dot_product`. -/
def vec3_dot_product (u v : vec3_t F) : F :=
  u.x * v.x + u.y * v.y + u.z * v.z

/-- Modelled from the spec: `vec3_length_squared`. -/
def vec3_length_squared (v : vec3_t F) : F :=
  v.x * v.x + v.y * v.y + v.z * v.z

/-- Modelled from the spec: `vec3_get_y`, the second component. -/
def vec3_get_y (v : vec3_t F) : F := v.y

/-- Modelled from the spec: `vec3_unit_vector`, normalisation: the vector
divided by its length, the length being the square root of the squared
length. -/
def vec3_unit_vector (sqrt : F → F) (v : vec3_t F) : vec3_t F :=
  vec3_scaling (1 / sqrt (vec3_length_squared v)) v

/-- Modelled from the spec: `vec3_reflect`, the standard reflection formula
`d - 2·dot(d,n)·n`. -/
def vec3_reflect (d n : vec3_t F) : vec3_t F :=
  vec3_sub d (vec3_scaling (2 * vec3_dot_product d n) n)

/-- Modelled from the spec: `color_set`. -/
def color_set (r g b : F) : color_t F := ⟨r, g, b⟩

/-- Modelled from the spec: `color_scaling`. -/
def color_scaling (t : F) (c : color_t F) : color_t F :=
  ⟨t * c.x, t * c.y, t * c.z⟩

/-- Modelled from the spec: `color_add`. -/
def color_add (c d : color_t F) : color_t F :=
  ⟨c.x + d.x, c.y + d.y, c.z + d.z⟩

end Primitives

/-- The collaborators of `ray.c` that are taken as parameters: the library
`sqrt`, the scene query `hittable_list_hit(ray, t_min, t_max, &rec, &obj)`
(`none` when it returns `false`), and the two random samplers, which read and
advance the generator state. -/
structure Env (F G : Type) where
  sqrt : F → F
  hittable_list_hit : ray_t F → F → WithTop F → Option (hit_record_t F × rt_obj F)
  vec3_random_in_hemisphere : G → vec3_t F → vec3_t F × G
  vec3_random_unit_vector : G → vec3_t F × G

/-! ## The functions of `ray.c` -/

section Code

variable {F G : Type} [Add F] [Sub F] [Mul F] [Div F] [Neg F] [Zero F] [One F] [NatCast F]
  [LT F] [DecidableRel (fun a b : F => a < b)]

/-- The function `ray_init`: store origin and direction. -/
def ray_init (origin : point3_t F) (direction : vec3_t F) : ray_t F :=
  { orig := origin, dir := direction }

/-- The function `ray_at`: `p_t = origin + (t * direction)`. -/
def ray_at (ray : ray_t F) (t : F) : point3_t F :=
  let t_times_dir := vec3_scaling t ray.dir
  vec3_add ray.orig t_times_dir

/-- The function `set_face_normal`: the record after the call. -/
def set_face_normal (rec : hit_record_t F) (ray : ray_t F) (outward_normal : vec3_t F) :
    hit_record_t F :=
  let rec1 := { rec with front_face := decide (vec3_dot_product ray.dir outward_normal < 0) }
  if rec1.front_face = true then
    { rec1 with normal := outward_normal }
  else
    let neg_outward_normal := vec3_negate outward_normal
    { rec1 with normal := neg_outward_normal }

/-- Lines 43-49 of `hit_sphere`: the discriminant
`(half_b * half_b) - (a * c)` of the intersection quadratic. -/
def hit_sphere_discriminant (center : point3_t F) (radius : F) (ray : ray_t F) : F :=
  let oc := vec3_sub ray.orig center
  let a := vec3_length_squared ray.dir
  let half_b := vec3_dot_product oc ray.dir
  let c := vec3_length_squared oc - (radius * radius)
  (half_b * half_b) - (a * c)

/-- The arithmetic of line 54 of `hit_sphere`, where `sqrt` is the `double`
function of `math.h`: the promotion of a `float` to `double`, the conversion
of the `double` result to the `float` that is returned, and the `double`
square root, subtraction and division. -/
structure wide (F D : Type) where
  to_double : F → D
  to_float : D → F
  sqrt : D → D
  sub : D → D → D
  div : D → D → D

/-- The function `hit_sphere`.  Lines 44 to 51 are `float` arithmetic; in
`(-half_b - sqrt(discriminant)) / a` the negation is a `float` negation, the
operands are promoted to `double`, and the quotient is converted to `float`
on return. -/
def hit_sphere {D : Type} (w : wide F D) (center : point3_t F) (radius : F) (ray : ray_t F) :
    F :=
  let oc := vec3_sub ray.orig center
  let a := vec3_length_squared ray.dir
  let half_b := vec3_dot_product oc ray.dir
  let c := vec3_length_squared oc - (radius * radius)
  let discriminant := (half_b * half_b) - (a * c)
  if discriminant < 0 then
    -1
  else
    w.to_float (w.div (w.sub (w.to_double (-half_b)) (w.sqrt (w.to_double discriminant)))
      (w.to_double a))

/-- The function `lambertian_scattering`: the returned flag, the scattered
ray and the generator state after the call. -/
def lambertian_scattering (env : Env F G) (g : G) (_ray_in : ray_t F) (rec : hit_record_t F) :
    Bool × ray_t F × G :=
  let (random_vec, g1) := env.vec3_random_in_hemisphere g rec.normal
  let target := vec3_add rec.p rec.normal
  let target := vec3_add target random_vec
  let scattered_ray_dir := vec3_sub target rec.p
  (true, ray_init rec.p scattered_ray_dir, g1)

/-- The function `metal_scattering`: the returned flag, the scattered ray
and the generator state after the call. -/
def metal_scattering (env : Env F G) (g : G) (ray_in : ray_t F) (rec : hit_record_t F)
    (fuzzyness : F) : Bool × ray_t F × G :=
  let r_in_dir_unit := vec3_unit_vector env.sqrt ray_in.dir
  let reflected_vec := vec3_reflect r_in_dir_unit rec.normal
  let (random_vec, g1) := env.vec3_random_unit_vector g
  let fuzzy_random_vec := vec3_scaling fuzzyness random_vec
  let fuzzy_reflected_vec := vec3_add reflected_vec fuzzy_random_vec
  (decide (vec3_dot_product reflected_vec rec.normal > 0),
    ray_init rec.p fuzzy_reflected_vec, g1)

/-- Lines 145-161 of `ray_color`: the background gradient of a ray,
`((1.0 - t) * color1) + (t * color2)`. -/
def background (env : Env F G) (ray : ray_t F) : color_t F :=
  let unit_ray_dir := vec3_unit_vector env.sqrt ray.dir
  let t := (1 / 2) * (vec3_get_y unit_ray_dir + 1)
  let color1 : color_t F := color_set 1 1 1
  let color2 : color_t F := color_set (1 / 2) (7 / 10) 1
  let tmp1 := color_scaling (1 - t) color1
  let tmp2 := color_scaling t color2
  color_add tmp1 tmp2

/-- Lines 137-139 of `ray_color`: `pixel_color->e[i] *= albedo.e[i]`. -/
def attenuate (pixel_color albedo : color_t F) : color_t F :=
  ⟨pixel_color.x * albedo.x, pixel_color.y * albedo.y, pixel_color.z * albedo.z⟩

/-- Lines 122-131 of `ray_color`: the dispatch on the material.  `METAL` has
no `break` and falls into `default: break;`, which does nothing.  For any
other tag neither `valid_scattering` nor `sub_ray` is written, and the read
of `valid_scattering` that follows is undefined: `none`. -/
def scatter (env : Env F G) (g : G) (ray : ray_t F) (rec : hit_record_t F) (hit_obj : rt_obj F) :
    Option (Bool × ray_t F × G) :=
  match hit_obj.material with
  | Material.LAMBERTIAN => some (lambertian_scattering env g ray rec)
  | Material.METAL => some (metal_scattering env g ray rec hit_obj.metal_fuzzyness)
  | Material.UNKNOWN => none

/-- The function `ray_color`: the colour written to `pixel_color` and the
generator state after the call; `none` when the call reads the
uninitialised `valid_scattering`.  The scene is queried on the range
`0.001` to `INFINITY`.  The C `int depth` is an `Int` here: `depth - 1` is
computed only when `depth > 0`, where it cannot overflow. -/
def ray_color (env : Env F G) (g : G) (ray : ray_t F) (depth : Int) : Option (color_t F × G) :=
  if depth ≤ 0 then
    some (color_set 0 0 0, g)
  else
    match env.hittable_list_hit ray (1 / 1000) ⊤ with
    | some (rec, hit_obj) =>
      match scatter env g ray rec hit_obj with
      | none => none
      | some (valid_scattering, sub_ray, g1) =>
        if valid_scattering = true then
          match ray_color env g1 sub_ray (depth - 1) with
          | none => none
          | some (pixel_color, g2) => some (attenuate pixel_color hit_obj.albedo, g2)
        else
          some (background env ray, g1)
    | none => some (background env ray, g)
termination_by depth.toNat
decreasing_by omega

/-- The bookkeeping of one call of `ray_color`: how many times the scene was
queried and how many recursive calls were made.  `ray_color` calls itself at
most once per invocation, so the number of recursive calls is also the depth
to which the calls nest. -/
structure call_stats where
  scene_queries : Nat
  recursive_calls : Nat
deriving DecidableEq, Repr

/-- The control flow of `ray_color` once more, counting the calls of
`hittable_list_hit` and of `ray_color` itself instead of computing the
colour. -/
def ray_color_stats (env : Env F G) (g : G) (ray : ray_t F) (depth : Int) : call_stats :=
  if depth ≤ 0 then
    ⟨0, 0⟩
  else
    match env.hittable_list_hit ray (1 / 1000) ⊤ with
    | some (rec, hit_obj) =>
      match scatter env g ray rec hit_obj with
      | none => ⟨1, 0⟩
      | some (valid_scattering, sub_ray, g1) =>
        if valid_scattering = true then
          let s := ray_color_stats env g1 sub_ray (depth - 1)
          ⟨s.scene_queries + 1, s.recursive_calls + 1⟩
        else
          ⟨1, 0⟩
    | none => ⟨1, 0⟩
termination_by depth.toNat
decreasing_by omega

/-- The control flow of `ray_color` a third time, collecting the rays of the
bounce chain: the ray of the call and the rays of the recursive calls below
it. -/
def ray_color_rays (env : Env F G) (g : G) (ray : ray_t F) (depth : Int) : List (ray_t F) :=
  if depth ≤ 0 then
    [ray]
  else
    match env.hittable_list_hit ray (1 / 1000) ⊤ with
    | some (rec, hit_obj) =>
      match scatter env g ray rec hit_obj with
      | none => [ray]
      | some (valid_scattering, sub_ray, g1) =>
        if valid_scattering = true then
          ray :: ray_color_rays env g1 sub_ray (depth - 1)
        else
          [ray]
    | none => [ray]
termination_by depth.toNat
decreasing_by omega

end Code

/-! ## Concrete inputs -/

section Examples

/-- The arithmetic of line 54 as the C code has it: `float` and `double`. -/
def wide_f32 : wide f32 f64 := ⟨f32.to_f64, f64.to_f32, f64.sqrt, f64.sub, f64.div⟩

/-- The rational values of the components of a `float` vector. -/
def vec3_val (v : vec3_t f32) : vec3_t ℚ := ⟨v.x.val, v.y.val, v.z.val⟩

/-- The rational values of the components of a `float` ray. -/
def ray_val (ray : ray_t f32) : ray_t ℚ := ⟨vec3_val ray.orig, vec3_val ray.dir⟩

/-- A square root on `ℚ` that is exact on squares of rationals: the integer
square roots of numerator and denominator. -/
def sqrt_q (q : ℚ) : ℚ := (Nat.sqrt q.num.toNat : ℚ) / (Nat.sqrt q.den : ℚ)

/-- A scene with one grey diffuse sphere of radius `1` centred at `(0,2,0)`,
as seen by rays that start at the origin: they hit it at `(0,1,0)`, where
the outward normal is `(0,-1,0)`; every other ray misses.  The hemisphere
sampler always answers `(0,-1,0)` and the unit sampler `(1,0,0)`; the
generator state counts the samples drawn. -/
def env_diffuse : Env ℚ Nat where
  sqrt := sqrt_q
  hittable_list_hit := fun ray _ _ =>
    if ray.orig = ⟨0, 0, 0⟩ then
      some (⟨⟨0, 1, 0⟩, ⟨0, -1, 0⟩, true⟩,
        ⟨⟨0, 2, 0⟩, 1, Material.LAMBERTIAN, ⟨1 / 2, 1 / 2, 1 / 2⟩, 0⟩)
    else none
  vec3_random_in_hemisphere := fun g _ => (⟨0, -1, 0⟩, g + 1)
  vec3_random_unit_vector := fun g => (⟨1, 0, 0⟩, g + 1)

/-- A scene whose query reports, for rays that start at the origin, a hit on
a metal object with a normal `(0,1,0)` that points along the ray rather than
against it, so that the mirror direction points into the surface. -/
def env_metal : Env ℚ Nat where
  sqrt := sqrt_q
  hittable_list_hit := fun ray _ _ =>
    if ray.orig = ⟨0, 0, 0⟩ then
      some (⟨⟨0, 1, 0⟩, ⟨0, 1, 0⟩, false⟩,
        ⟨⟨0, 2, 0⟩, 1, Material.METAL, ⟨1 / 2, 1 / 2, 1 / 2⟩, 1 / 4⟩)
    else none
  vec3_random_in_hemisphere := fun g _ => (⟨0, 1, 0⟩, g + 1)
  vec3_random_unit_vector := fun g => (⟨1, 0, 0⟩, g + 1)

/-- The ray from the origin straight up. -/
def ray_up : ray_t ℚ := ⟨⟨0, 0, 0⟩, ⟨0, 1, 0⟩⟩

/-- An empty scene whose unit sampler always answers `(0,-1,0)`, the
direction straight into a floor with normal `(0,1,0)`. -/
def env_rough : Env ℚ Nat where
  sqrt := sqrt_q
  hittable_list_hit := fun _ _ _ => none
  vec3_random_in_hemisphere := fun g _ => (⟨0, 1, 0⟩, g + 1)
  vec3_random_unit_vector := fun g => (⟨0, -1, 0⟩, g + 1)

/-- A scene whose query reports, for rays that start at the origin, a hit on
an object whose material tag is neither `LAMBERTIAN` nor `METAL`. -/
def env_unknown : Env ℚ Nat where
  sqrt := sqrt_q
  hittable_list_hit := fun ray _ _ =>
    if ray.orig = ⟨0, 0, 0⟩ then
      some (⟨⟨0, 1, 0⟩, ⟨0, -1, 0⟩, true⟩,
        ⟨⟨0, 2, 0⟩, 1, Material.UNKNOWN, ⟨1 / 2, 1 / 2, 1 / 2⟩, 0⟩)
    else none
  vec3_random_in_hemisphere := fun g _ => (⟨0, -1, 0⟩, g + 1)
  vec3_random_unit_vector := fun g => (⟨1, 0, 0⟩, g + 1)

/-- A `float` scene whose query reports the given record and object for every
ray, with the `float` square root, a hemisphere sampler that always answers
`(0,1,0)` and a unit sampler that always answers `(1,0,0)`; the generator
state counts the samples drawn. -/
def env_record (rec : hit_record_t f32) (obj : rt_obj f32) : Env f32 Nat where
  sqrt := f32.sqrt
  hittable_list_hit := fun _ _ _ => some (rec, obj)
  vec3_random_in_hemisphere := fun g _ => (⟨0, 1, 0⟩, g + 1)
  vec3_random_unit_vector := fun g => (⟨1, 0, 0⟩, g + 1)

/-- A vector of rationals read in a field `K`. -/
def vec3_cast (K : Type) [RatCast K] (v : vec3_t ℚ) : vec3_t K :=
  ⟨(v.x : K), (v.y : K), (v.z : K)⟩

/-- A ray of rationals read in a field `K`. -/
def ray_cast (K : Type) [RatCast K] (ray : ray_t ℚ) : ray_t K :=
  ⟨vec3_cast K ray.orig, vec3_cast K ray.dir⟩

end Examples

/-! ## Lemmas -/

section Unfolding

variable {F G : Type} [Add F] [Sub F] [Mul F] [Div F] [Zero F] [One F] [NatCast F]
  [LT F] [DecidableRel (fun a b : F => a < b)]

theorem ray_color_nonpos (env : Env F G) (g : G) (ray : ray_t F) (depth : Int)
    (hd : depth ≤ 0) : ray_color env g ray depth = some (color_set 0 0 0, g) := by
  rw [ray_color]
  simp [hd]

theorem ray_color_pos (env : Env F G) (g : G) (ray : ray_t F) (depth : Int)
    (hd : 0 < depth) :
    ray_color env g ray depth =
      match env.hittable_list_hit ray (1 / 1000) ⊤ with
      | some (rec, hit_obj) =>
        match scatter env g ray rec hit_obj with
        | none => none
        | some (valid_scattering, sub_ray, g1) =>
          if valid_scattering = true then
            match ray_color env g1 sub_ray (depth - 1) with
            | none => none
            | some (pixel_color, g2) => some (attenuate pixel_color hit_obj.albedo, g2)
          else
            some (background env ray, g1)
      | none => some (background env ray, g) := by
  rw [ray_color]
  simp [not_le.mpr hd]

theorem ray_color_stats_nonpos (env : Env F G) (g : G) (ray : ray_t F) (depth : Int)
    (hd : depth ≤ 0) : ray_color_stats env g ray depth = ⟨0, 0⟩ := by
  rw [ray_color_stats]
  simp [hd]

theorem ray_color_stats_pos (env : Env F G) (g : G) (ray : ray_t F) (depth : Int)
    (hd : 0 < depth) :
    ray_color_stats env g ray depth =
      match env.hittable_list_hit ray (1 / 1000) ⊤ with
      | some (rec, hit_obj) =>
        match scatter env g ray rec hit_obj with
        | none => ⟨1, 0⟩
        | some (valid_scattering, sub_ray, g1) =>
          if valid_scattering = true then
            ⟨(ray_color_stats env g1 sub_ray (depth - 1)).scene_queries + 1,
              (ray_color_stats env g1 sub_ray (depth - 1)).recursive_calls + 1⟩
          else
            ⟨1, 0⟩
      | none => ⟨1, 0⟩ := by
  rw [ray_color_stats]
  simp [not_le.mpr hd]

/-- One step of `ray_color` when the dispatch reports a valid scatter. -/
theorem ray_color_scatter_valid (env : Env F G) (g g1 : G) (ray sub_ray : ray_t F)
    (depth : Int) (rec : hit_record_t F) (hit_obj : rt_obj F) (hd : 0 < depth)
    (hhit : env.hittable_list_hit ray (1 / 1000) ⊤ = some (rec, hit_obj))
    (hs : scatter env g ray rec hit_obj = some (true, sub_ray, g1)) :
    ray_color env g ray depth =
      (ray_color env g1 sub_ray (depth - 1)).map
        (fun r => (attenuate r.1 hit_obj.albedo, r.2)) := by
  rw [ray_color_pos env g ray depth hd, hhit]
  simp only [hs, if_true]
  cases h : ray_color env g1 sub_ray (depth - 1) with
  | none => simp
  | some r => simp

/-- One step of `ray_color` when the dispatch reports an invalid scatter. -/
theorem ray_color_scatter_invalid (env : Env F G) (g g1 : G) (ray sub_ray : ray_t F)
    (depth : Int) (rec : hit_record_t F) (hit_obj : rt_obj F) (hd : 0 < depth)
    (hhit : env.hittable_list_hit ray (1 / 1000) ⊤ = some (rec, hit_obj))
    (hs : scatter env g ray rec hit_obj = some (false, sub_ray, g1)) :
    ray_color env g ray depth = some (background env ray, g1) := by
  rw [ray_color_pos env g ray depth hd, hhit]
  simp [hs]

end Unfolding

section Lemmas

variable {F G : Type} [LinearOrderedField F]

theorem sqrt_q_one : sqrt_q 1 = 1 := by simp [sqrt_q]

theorem sqrt_q_four : sqrt_q 4 = 2 := by
  have h : Nat.sqrt 4 = 2 := Nat.sqrt_eq 2
  simp [sqrt_q, h]

theorem background_eq (env : Env F G) (ray : ray_t F) :
    background env ray =
      ⟨(1 - (1 / 2) * ((vec3_unit_vector env.sqrt ray.dir).y + 1)) * 1
          + (1 / 2) * ((vec3_unit_vector env.sqrt ray.dir).y + 1) * (1 / 2),
        (1 - (1 / 2) * ((vec3_unit_vector env.sqrt ray.dir).y + 1)) * 1
          + (1 / 2) * ((vec3_unit_vector env.sqrt ray.dir).y + 1) * (7 / 10),
        (1 - (1 / 2) * ((vec3_unit_vector env.sqrt ray.dir).y + 1)) * 1
          + (1 / 2) * ((vec3_unit_vector env.sqrt ray.dir).y + 1) * 1⟩ := by
  simp [background, color_add, color_scaling, color_set, vec3_get_y]

theorem ray_color_miss (env : Env F G) (g : G) (ray : ray_t F) (depth : Int)
    (hd : 0 < depth) (hmiss : env.hittable_list_hit ray (1 / 1000) ⊤ = none) :
    ray_color env g ray depth = some (background env ray, g) := by
  rw [ray_color_pos env g ray depth hd, hmiss]

/-- The squared distance of the ray point at `t` from the centre, minus the
squared radius, is the quadratic `a t² + 2 half_b t + c`. -/
theorem sphere_equation_quadratic (center : point3_t F) (radius : F) (ray : ray_t F) (t : F) :
    vec3_length_squared (vec3_sub (ray_at ray t) center) - radius * radius =
      vec3_length_squared ray.dir * (t * t)
        + 2 * vec3_dot_product (vec3_sub ray.orig center) ray.dir * t
        + (vec3_length_squared (vec3_sub ray.orig center) - radius * radius) := by
  simp only [vec3_length_squared, vec3_sub, ray_at, vec3_add, vec3_scaling, vec3_dot_product]
  ring

/-- No real `t` is a root when the discriminant is negative. -/
theorem quadratic_no_root (a hb c t : F) (hdisc : hb * hb - a * c < 0) :
    a * (t * t) + 2 * hb * t + c ≠ 0 := by
  intro ht
  have hsq : (t * a + hb) * (t * a + hb) = hb * hb - a * c := by
    linear_combination a * ht
  have := mul_self_nonneg (t * a + hb)
  linarith

end Lemmas

/-! ## The colour recursion -/

section RayColor

variable {F G : Type} [LinearOrderedField F]

/-- C1: at positive depth, when the scene query on the range `0.001` to
infinity reports a hit on a `LAMBERTIAN` or `METAL` object and the scattering
model of that material reports a valid scatter, `ray_color` is the colour of
the scattered ray at `depth - 1` multiplied channel by channel with the
albedo of the object; with albedo `(0.5,0.5,0.5)` and a recursive colour
`(1,1,1)` the result is `(0.5,0.5,0.5)`. -/
theorem ray_color_valid_scatter (env : Env F G) (g g1 : G) (ray sub_ray : ray_t F)
    (depth : Int) (rec : hit_record_t F) (hit_obj : rt_obj F)
    (hd : 0 < depth)
    (hhit : env.hittable_list_hit ray (1 / 1000) ⊤ = some (rec, hit_obj))
    (hsc : (hit_obj.material = Material.LAMBERTIAN ∧
              lambertian_scattering env g ray rec = (true, sub_ray, g1)) ∨
           (hit_obj.material = Material.METAL ∧
              metal_scattering env g ray rec hit_obj.metal_fuzzyness = (true, sub_ray, g1))) :
    ray_color env g ray depth =
        (ray_color env g1 sub_ray (depth - 1)).map
          (fun r => (⟨r.1.x * hit_obj.albedo.x, r.1.y * hit_obj.albedo.y,
                        r.1.z * hit_obj.albedo.z⟩, r.2)) ∧
      (∀ g2 : G, hit_obj.albedo = ⟨1 / 2, 1 / 2, 1 / 2⟩ →
        ray_color env g1 sub_ray (depth - 1) = some (⟨1, 1, 1⟩, g2) →
        ray_color env g ray depth = some (⟨1 / 2, 1 / 2, 1 / 2⟩, g2)) := by
  have hs : scatter env g ray rec hit_obj = some (true, sub_ray, g1) := by
    rcases hsc with ⟨hm, hl⟩ | ⟨hm, hl⟩
    · simp [scatter, hm, hl]
    · simp [scatter, hm, hl]
  have key : ray_color env g ray depth =
      (ray_color env g1 sub_ray (depth - 1)).map
        (fun r => (⟨r.1.x * hit_obj.albedo.x, r.1.y * hit_obj.albedo.y,
                      r.1.z * hit_obj.albedo.z⟩, r.2)) := by
    rw [ray_color_pos env g ray depth hd, hhit]
    simp only [hs, if_true]
    cases h : ray_color env g1 sub_ray (depth - 1) with
    | none => simp
    | some r => simp [attenuate]
  refine ⟨key, ?_⟩
  intro g2 ha hr
  rw [key, hr, ha]
  simp

/-- Two runs of the valid-scatter rule.  In `env_diffuse` the ray from the
origin straight up hits the grey diffuse sphere, scatters straight down,
misses, and the white background is halved.  In `env_metal` the ray from the
origin straight down is mirrored by the metal object; at depth `1` the
scattered ray is evaluated at depth `0`, and black times the albedo is
black. -/
theorem ray_color_valid_scatter_witness :
    ray_color env_diffuse 0 ray_up 2 = some (⟨1 / 2, 1 / 2, 1 / 2⟩, 1) ∧
      ray_color env_metal 0 ⟨⟨0, 0, 0⟩, ⟨0, -1, 0⟩⟩ 1 = some (⟨0, 0, 0⟩, 1) := by
  have hsub : ray_color env_diffuse 1 ⟨⟨0, 1, 0⟩, ⟨0, -2, 0⟩⟩ (2 - 1)
      = some (⟨1, 1, 1⟩, 1) := by
    rw [ray_color_miss env_diffuse 1 _ (2 - 1) (by decide) (by simp [env_diffuse]),
      background_eq]
    simp [env_diffuse, vec3_unit_vector, vec3_length_squared, vec3_scaling]
    norm_num [sqrt_q_four]
  have hdown : vec3_unit_vector sqrt_q (⟨0, -1, 0⟩ : vec3_t ℚ) = ⟨0, -1, 0⟩ := by
    simp [vec3_unit_vector, vec3_length_squared, vec3_scaling, sqrt_q_one]
  refine ⟨(ray_color_valid_scatter env_diffuse 0 1 ray_up ⟨⟨0, 1, 0⟩, ⟨0, -2, 0⟩⟩ 2
    ⟨⟨0, 1, 0⟩, ⟨0, -1, 0⟩, true⟩
    ⟨⟨0, 2, 0⟩, 1, Material.LAMBERTIAN, ⟨1 / 2, 1 / 2, 1 / 2⟩, 0⟩
    (by decide) (by simp [env_diffuse, ray_up])
    (Or.inl ⟨rfl, by
      simp [lambertian_scattering, env_diffuse, ray_init, vec3_add, vec3_sub]
      norm_num⟩)).2 1 rfl hsub, ?_⟩
  have h := (ray_color_valid_scatter env_metal 0 1 ⟨⟨0, 0, 0⟩, ⟨0, -1, 0⟩⟩
    ⟨⟨0, 1, 0⟩, ⟨1 / 4, 1, 0⟩⟩ 1
    ⟨⟨0, 1, 0⟩, ⟨0, 1, 0⟩, false⟩
    ⟨⟨0, 2, 0⟩, 1, Material.METAL, ⟨1 / 2, 1 / 2, 1 / 2⟩, 1 / 4⟩
    (by decide) (by simp [env_metal])
    (Or.inr ⟨rfl, by
      simp [metal_scattering, env_metal, hdown, vec3_reflect, vec3_dot_product,
        vec3_scaling, vec3_sub, vec3_add, ray_init]
      norm_num⟩)).1
  rw [h, ray_color_nonpos env_metal 1 _ (1 - 1) (by decide)]
  simp [color_set]

/-- C2: at depth zero or below `ray_color` writes black `(0,0,0)`, whatever
the ray and the scene; it draws no random sample, queries the scene zero
times and makes zero recursive calls. -/
theorem ray_color_depth_exhausted (env : Env F G) (g : G) (ray : ray_t F) (depth : Int)
    (hd : depth ≤ 0) :
    ray_color env g ray depth = some (⟨0, 0, 0⟩, g) ∧
      (ray_color_stats env g ray depth).scene_queries = 0 ∧
      (ray_color_stats env g ray depth).recursive_calls = 0 := by
  rw [ray_color_nonpos env g ray depth hd, ray_color_stats_nonpos env g ray depth hd]
  exact ⟨rfl, rfl, rfl⟩

/-- Two runs with exhausted depth: depth `0` and depth `-3` on a ray that would hit
the sphere at positive depth. -/
theorem ray_color_depth_exhausted_witness :
    (ray_color env_diffuse 0 ray_up 0 = some (⟨0, 0, 0⟩, 0) ∧
      (ray_color_stats env_diffuse 0 ray_up 0).scene_queries = 0 ∧
      (ray_color_stats env_diffuse 0 ray_up 0).recursive_calls = 0) ∧
    (ray_color env_diffuse 0 ray_up (-3) = some (⟨0, 0, 0⟩, 0) ∧
      (ray_color_stats env_diffuse 0 ray_up (-3)).scene_queries = 0 ∧
      (ray_color_stats env_diffuse 0 ray_up (-3)).recursive_calls = 0) :=
  ⟨ray_color_depth_exhausted env_diffuse 0 ray_up 0 (by decide),
    ray_color_depth_exhausted env_diffuse 0 ray_up (-3) (by decide)⟩

/-- C3: at positive depth, when the scene query finds no hit, `ray_color`
returns `(1-t)*(1,1,1) + t*(0.5,0.7,1.0)` with
`t = 0.5*(unit(ray.direction).y + 1)`.  Where the square root of `1` is `1`,
a ray with direction `(0,1,0)` gets `(0.5,0.7,1.0)` and a ray with direction
`(0,-1,0)` gets `(1,1,1)`. -/
theorem ray_color_on_miss (env : Env F G) (g : G) (ray : ray_t F) (depth : Int)
    (hd : 0 < depth) (hmiss : env.hittable_list_hit ray (1 / 1000) ⊤ = none) :
    (∃ t : F, t = (1 / 2) * ((vec3_unit_vector env.sqrt ray.dir).y + 1) ∧
      ray_color env g ray depth =
        some (⟨(1 - t) * 1 + t * (1 / 2), (1 - t) * 1 + t * (7 / 10),
                (1 - t) * 1 + t * 1⟩, g)) ∧
      (env.sqrt 1 = 1 → ray.dir = ⟨0, 1, 0⟩ →
        ray_color env g ray depth = some (⟨1 / 2, 7 / 10, 1⟩, g)) ∧
      (env.sqrt 1 = 1 → ray.dir = ⟨0, -1, 0⟩ →
        ray_color env g ray depth = some (⟨1, 1, 1⟩, g)) := by
  rw [ray_color_miss env g ray depth hd hmiss, background_eq]
  refine ⟨⟨_, rfl, rfl⟩, ?_, ?_⟩
  · intro hs hdir
    simp [hdir, vec3_unit_vector, vec3_length_squared, vec3_scaling, hs]
    norm_num
  · intro hs hdir
    simp [hdir, vec3_unit_vector, vec3_length_squared, vec3_scaling, hs]

/-- Two runs of the miss rule: a ray from `(0,5,0)` misses the sphere of
`env_diffuse`; going straight up it gets the sky blue, going straight down it
gets white. -/
theorem ray_color_on_miss_witness :
    ray_color env_diffuse 0 ⟨⟨0, 5, 0⟩, ⟨0, 1, 0⟩⟩ 1 = some (⟨1 / 2, 7 / 10, 1⟩, 0) ∧
      ray_color env_diffuse 0 ⟨⟨0, 5, 0⟩, ⟨0, -1, 0⟩⟩ 1 = some (⟨1, 1, 1⟩, 0) :=
  ⟨(ray_color_on_miss env_diffuse 0 ⟨⟨0, 5, 0⟩, ⟨0, 1, 0⟩⟩ 1 (by decide)
      (by simp [env_diffuse])).2.1 sqrt_q_one rfl,
    (ray_color_on_miss env_diffuse 0 ⟨⟨0, 5, 0⟩, ⟨0, -1, 0⟩⟩ 1 (by decide)
      (by simp [env_diffuse])).2.2 sqrt_q_one rfl⟩

/-- C4: at positive depth, when the ray hits a `METAL` object and
`metal_scattering` reports the scatter invalid, `ray_color` makes no
recursive call and returns a colour, not an error: the background gradient of
the incoming ray, which is the colour the same call returns when the scene
query misses, whatever the albedo of the object. -/
theorem ray_color_invalid_metal_scatter (env : Env F G) (g g1 : G) (ray sub_ray : ray_t F)
    (depth : Int) (rec : hit_record_t F) (hit_obj : rt_obj F)
    (hd : 0 < depth)
    (hhit : env.hittable_list_hit ray (1 / 1000) ⊤ = some (rec, hit_obj))
    (hmat : hit_obj.material = Material.METAL)
    (hsc : metal_scattering env g ray rec hit_obj.metal_fuzzyness = (false, sub_ray, g1)) :
    (ray_color_stats env g ray depth).recursive_calls = 0 ∧
      (∃ t : F, t = (1 / 2) * ((vec3_unit_vector env.sqrt ray.dir).y + 1) ∧
        ray_color env g ray depth =
          some (⟨(1 - t) * 1 + t * (1 / 2), (1 - t) * 1 + t * (7 / 10),
                  (1 - t) * 1 + t * 1⟩, g1)) ∧
      (ray_color env g ray depth).map Prod.fst =
        (ray_color { env with hittable_list_hit := fun _ _ _ => none } g ray depth).map
          Prod.fst := by
  have hs : scatter env g ray rec hit_obj = some (false, sub_ray, g1) := by
    simp [scatter, hmat, hsc]
  have hc : ray_color env g ray depth = some (background env ray, g1) := by
    rw [ray_color_pos env g ray depth hd, hhit]
    simp [hs]
  refine ⟨?_, ⟨_, rfl, ?_⟩, ?_⟩
  · rw [ray_color_stats_pos env g ray depth hd, hhit]
    simp [hs]
  · rw [hc, background_eq]
  · rw [hc, ray_color_miss _ g ray depth hd rfl]
    simp [background]

/-- A run of the invalid-scatter rule: the ray from the origin straight up meets the
metal object of `env_metal`, whose normal points along the ray; the scatter
is invalid and the colour is the sky blue of the ray, not the blue times the
albedo. -/
theorem ray_color_invalid_metal_scatter_witness :
    (ray_color_stats env_metal 0 ray_up 3).recursive_calls = 0 ∧
      ray_color env_metal 0 ray_up 3 = some (⟨1 / 2, 7 / 10, 1⟩, 1) := by
  have hu : vec3_unit_vector sqrt_q (⟨0, 1, 0⟩ : vec3_t ℚ) = ⟨0, 1, 0⟩ := by
    simp [vec3_unit_vector, vec3_length_squared, vec3_scaling, sqrt_q_one]
  have h := ray_color_invalid_metal_scatter env_metal 0 1 ray_up
    ⟨⟨0, 1, 0⟩, ⟨1 / 4, -1, 0⟩⟩ 3 ⟨⟨0, 1, 0⟩, ⟨0, 1, 0⟩, false⟩
    ⟨⟨0, 2, 0⟩, 1, Material.METAL, ⟨1 / 2, 1 / 2, 1 / 2⟩, 1 / 4⟩
    (by decide) (by simp [env_metal, ray_up]) rfl
    (by
      simp [metal_scattering, env_metal, ray_up, hu, vec3_reflect, vec3_dot_product,
        vec3_scaling, vec3_sub, vec3_add, ray_init]
      norm_num)
  refine ⟨h.1, ?_⟩
  obtain ⟨t, ht, hc⟩ := h.2.1
  rw [hc, ht]
  simp [env_metal, ray_up, hu]
  norm_num

end RayColor

/-! ## Normal orientation -/

section FaceNormal

variable {F : Type} [LinearOrderedField F]

/-- C7: when the outward normal opposes the ray
(`dot(ray.dir, outward_normal) < 0`), `set_face_normal` stores the outward
normal unchanged and sets `front_face` to true; when it points the same way
as the ray (`dot > 0`), it stores the negated normal and sets `front_face`
to false.  The hit point is not touched. -/
theorem set_face_normal_orients (rec : hit_record_t F) (ray : ray_t F)
    (outward_normal : vec3_t F) :
    (vec3_dot_product ray.dir outward_normal < 0 →
        (set_face_normal rec ray outward_normal).normal = outward_normal ∧
        (set_face_normal rec ray outward_normal).front_face = true) ∧
      (0 < vec3_dot_product ray.dir outward_normal →
        (set_face_normal rec ray outward_normal).normal
            = ⟨-outward_normal.x, -outward_normal.y, -outward_normal.z⟩ ∧
        (set_face_normal rec ray outward_normal).front_face = false) ∧
      (set_face_normal rec ray outward_normal).p = rec.p := by
  refine ⟨?_, ?_, ?_⟩
  · intro h
    simp [set_face_normal, h]
  · intro h
    simp [set_face_normal, not_lt.mpr (le_of_lt h), vec3_negate]
  · simp only [set_face_normal]
    split <;> rfl

/-- Two worked orientations: a ray along `(0,0,-1)` against the outward normal
`(0,0,2)`, which opposes it, and against `(0,0,-2)`, which points the same
way. -/
theorem set_face_normal_orients_witness :
    ((set_face_normal ⟨⟨0, 0, -1⟩, ⟨5, 5, 5⟩, false⟩ ⟨⟨0, 0, 0⟩, ⟨0, 0, -1⟩⟩
          (⟨0, 0, 2⟩ : vec3_t ℚ)).normal = ⟨0, 0, 2⟩ ∧
      (set_face_normal ⟨⟨0, 0, -1⟩, ⟨5, 5, 5⟩, false⟩ ⟨⟨0, 0, 0⟩, ⟨0, 0, -1⟩⟩
          (⟨0, 0, 2⟩ : vec3_t ℚ)).front_face = true) ∧
    ((set_face_normal ⟨⟨0, 0, -1⟩, ⟨5, 5, 5⟩, true⟩ ⟨⟨0, 0, 0⟩, ⟨0, 0, -1⟩⟩
          (⟨0, 0, -2⟩ : vec3_t ℚ)).normal = ⟨0, 0, 2⟩ ∧
      (set_face_normal ⟨⟨0, 0, -1⟩, ⟨5, 5, 5⟩, true⟩ ⟨⟨0, 0, 0⟩, ⟨0, 0, -1⟩⟩
          (⟨0, 0, -2⟩ : vec3_t ℚ)).front_face = false) := by
  have h1 := (set_face_normal_orients ⟨⟨0, 0, -1⟩, ⟨5, 5, 5⟩, false⟩ ⟨⟨0, 0, 0⟩, ⟨0, 0, -1⟩⟩
      (⟨0, 0, 2⟩ : vec3_t ℚ)).1 (by norm_num [vec3_dot_product])
  have h2 := (set_face_normal_orients ⟨⟨0, 0, -1⟩, ⟨5, 5, 5⟩, true⟩ ⟨⟨0, 0, 0⟩, ⟨0, 0, -1⟩⟩
      (⟨0, 0, -2⟩ : vec3_t ℚ)).2.1 (by norm_num [vec3_dot_product])
  refine ⟨h1, ?_, h2.2⟩
  rw [h2.1]
  norm_num

end FaceNormal

/-! ## Scattering -/

section Scattering

variable {F G : Type} [LinearOrderedField F]

/-- C9: `metal_scattering` returns true if and only if
`dot(reflect(unit(ray_in.dir), rec.normal), rec.normal) > 0`; the flag is the
same for any two fuzz values and any two random sources (sampler and
generator state), so for any two random vectors. -/
theorem metal_scattering_valid_iff (env : Env F G) (g : G) (ray_in : ray_t F)
    (rec : hit_record_t F) (fuzzyness : F) :
    ((metal_scattering env g ray_in rec fuzzyness).1 = true ↔
        0 < vec3_dot_product
              (vec3_reflect (vec3_unit_vector env.sqrt ray_in.dir) rec.normal) rec.normal) ∧
      ∀ (sampler : G → vec3_t F × G) (g' : G) (fuzzyness' : F),
        (metal_scattering { env with vec3_random_unit_vector := sampler } g' ray_in rec
            fuzzyness').1
          = (metal_scattering env g ray_in rec fuzzyness).1 := by
  refine ⟨?_, ?_⟩
  · simp [metal_scattering]
  · intro sampler g' fuzzyness'
    simp [metal_scattering]

/-- Two worked metal scatters, both with the unit normal `(0,1,0)`: a ray
coming down along `(0,-2,0)` is mirrored upwards and the scatter is valid; a
ray going up along `(0,1,0)` is mirrored into the surface and the scatter is
invalid. -/
theorem metal_scattering_valid_iff_witness :
    (metal_scattering env_metal 0 ⟨⟨0, 3, 0⟩, ⟨0, -2, 0⟩⟩ ⟨⟨0, 1, 0⟩, ⟨0, 1, 0⟩, true⟩
        (1 / 4)).1 = true ∧
      (metal_scattering env_metal 0 ray_up ⟨⟨0, 1, 0⟩, ⟨0, 1, 0⟩, false⟩ (1 / 4)).1 ≠ true := by
  have hdown : vec3_unit_vector sqrt_q (⟨0, -2, 0⟩ : vec3_t ℚ) = ⟨0, -1, 0⟩ := by
    simp [vec3_unit_vector, vec3_length_squared, vec3_scaling]
    norm_num [sqrt_q_four]
  have hup : vec3_unit_vector sqrt_q (⟨0, 1, 0⟩ : vec3_t ℚ) = ⟨0, 1, 0⟩ := by
    simp [vec3_unit_vector, vec3_length_squared, vec3_scaling, sqrt_q_one]
  refine ⟨(metal_scattering_valid_iff env_metal 0 ⟨⟨0, 3, 0⟩, ⟨0, -2, 0⟩⟩
      ⟨⟨0, 1, 0⟩, ⟨0, 1, 0⟩, true⟩ (1 / 4)).1.mpr ?_, ?_⟩
  · simp only [env_metal, hdown]
    norm_num [vec3_reflect, vec3_dot_product, vec3_scaling, vec3_sub]
  · intro h
    have h2 := (metal_scattering_valid_iff env_metal 0 ray_up
      ⟨⟨0, 1, 0⟩, ⟨0, 1, 0⟩, false⟩ (1 / 4)).1.mp h
    simp only [env_metal, ray_up, hup] at h2
    norm_num [vec3_reflect, vec3_dot_product, vec3_scaling, vec3_sub] at h2

end Scattering

/-! ## The sphere intersection in exact arithmetic

The lemmas of this section are about `hit_sphere (wide_exact sqrt)`, the
formula of `hit_sphere` evaluated in an ordered field without rounding.  They
say what the formula computes; what the `float` code computes is compared
with it further down. -/

section HitSphereExact

variable {F : Type} [LinearOrderedField F]

theorem hit_sphere_discriminant_eq (center : point3_t F) (radius : F) (ray : ray_t F) :
    hit_sphere_discriminant center radius ray =
      vec3_dot_product (vec3_sub ray.orig center) ray.dir
          * vec3_dot_product (vec3_sub ray.orig center) ray.dir
        - vec3_length_squared ray.dir
          * (vec3_length_squared (vec3_sub ray.orig center) - radius * radius) := rfl

end HitSphereExact

/-! ## The intersection equation over the reals

The values of `float` data are rationals, but the parameter `t` of the
intersection equation ranges over the reals.  The lemmas of this section
carry the two facts that quantify over `t` from the rationals to any ordered
field `K`, the reals among them. -/

section Casts

variable {K : Type} [LinearOrderedField K]

theorem vec3_length_squared_cast (v : vec3_t ℚ) :
    vec3_length_squared (vec3_cast K v) = ((vec3_length_squared v : ℚ) : K) := by
  simp only [vec3_length_squared, vec3_cast]
  push_cast
  ring

theorem a_cast (ray : ray_t ℚ) :
    vec3_length_squared (ray_cast K ray).dir = ((vec3_length_squared ray.dir : ℚ) : K) :=
  vec3_length_squared_cast ray.dir

theorem half_b_cast (center : point3_t ℚ) (ray : ray_t ℚ) :
    vec3_dot_product (vec3_sub (ray_cast K ray).orig (vec3_cast K center)) (ray_cast K ray).dir
      = ((vec3_dot_product (vec3_sub ray.orig center) ray.dir : ℚ) : K) := by
  simp only [vec3_dot_product, vec3_sub, vec3_cast, ray_cast]
  push_cast
  ring

theorem c_cast (center : point3_t ℚ) (radius : ℚ) (ray : ray_t ℚ) :
    vec3_length_squared (vec3_sub (ray_cast K ray).orig (vec3_cast K center))
        - (radius : K) * (radius : K)
      = ((vec3_length_squared (vec3_sub ray.orig center) - radius * radius : ℚ) : K) := by
  simp only [vec3_length_squared, vec3_sub, vec3_cast, ray_cast]
  push_cast
  ring

/-- With a negative discriminant no `t` of any ordered field satisfies the
intersection equation. -/
theorem exact_no_root_cast (center : point3_t ℚ) (radius : ℚ) (ray : ray_t ℚ)
    (hdisc : hit_sphere_discriminant center radius ray < 0) (t : K) :
    vec3_length_squared (vec3_sub (ray_at (ray_cast K ray) t) (vec3_cast K center))
      ≠ (radius : K) * (radius : K) := by
  intro ht
  have h := sphere_equation_quadratic (vec3_cast K center) (radius : K) (ray_cast K ray) t
  rw [ht, sub_self] at h
  refine quadratic_no_root _ _ _ t ?_ h.symm
  rw [half_b_cast, c_cast, a_cast]
  rw [hit_sphere_discriminant_eq] at hdisc
  exact_mod_cast hdisc

end Casts

/-! ## Facts about the floating-point operations -/

section FloatSigns

theorem fp_mk_sign (s : Bool) (m : Nat) (e : Int) : ∃ m1 e1, fp.mk s m e = fp.fin s m1 e1 := by
  unfold fp.mk
  split
  · exact ⟨_, _, rfl⟩
  · exact ⟨_, _, rfl⟩

theorem fround_sign (f : fmt) (s : Bool) (m : Nat) (e : Int) (st : Bool) :
    (∃ m1 e1, fround f s m e st = fp.fin s m1 e1) ∨ fround f s m e st = fp.inf s := by
  unfold fround
  simp only []
  split_ifs <;>
    first
      | exact Or.inr rfl
      | exact Or.inl (fp_mk_sign _ _ _)
      | exact Or.inl ⟨_, _, rfl⟩

theorem fround_nan_or_neg (f : fmt) (m : Nat) (e : Int) (st : Bool) :
    (fround f true m e st).nan_or_neg = true := by
  rcases fround_sign f true m e st with ⟨m1, e1, h⟩ | h <;> rw [h] <;> rfl

theorem fround_nan_or_pos (f : fmt) (m : Nat) (e : Int) (st : Bool) :
    (fround f false m e st).nan_or_pos = true := by
  rcases fround_sign f false m e st with ⟨m1, e1, h⟩ | h <;> rw [h] <;> rfl

theorem fmul_self_nan_or_pos (f : fmt) (x : fp) : (fmul f x x).nan_or_pos = true := by
  cases x with
  | nan => rfl
  | inf s => cases s <;> rfl
  | fin s m e =>
    have : fmul f (fp.fin s m e) (fp.fin s m e) = fround f false (m * m) (e + e) false := by
      cases s <;> rfl
    rw [this]
    exact fround_nan_or_pos _ _ _ _

theorem fadd_nan_or_pos (f : fmt) (x y : fp) (hx : x.nan_or_pos = true) (hy : y.nan_or_pos = true) :
    (fadd f x y).nan_or_pos = true := by
  cases x with
  | nan => cases y <;> rfl
  | inf s =>
    cases y with
    | nan => rfl
    | inf t =>
      cases s <;> cases t <;> simp_all [fp.nan_or_pos, fadd]
    | fin t m e => cases s <;> simp_all [fp.nan_or_pos, fadd]
  | fin s m e =>
    cases y with
    | nan => rfl
    | inf t => cases t <;> simp_all [fp.nan_or_pos, fadd]
    | fin t m2 e2 =>
      have hs : s = false := by simpa [fp.nan_or_pos] using hx
      have ht : t = false := by simpa [fp.nan_or_pos] using hy
      subst hs; subst ht
      simp only [fadd, if_true]
      exact fround_nan_or_pos _ _ _ _


theorem flt_zero_pos (x : fp) (h : flt (fp.fin false 0 0) x = true) :
    x = fp.inf false ∨ ∃ m e, x = fp.fin false m e ∧ 0 < m := by
  cases x with
  | nan => simp [flt] at h
  | inf t => cases t <;> simp [flt] at h ⊢
  | fin t m e =>
    cases t with
    | true => simp [flt] at h
    | false =>
      refine Or.inr ⟨m, e, rfl, ?_⟩
      simp only [flt, Bool.false_eq_true, if_false, zero_mul, decide_eq_true_eq] at h
      rcases Nat.eq_zero_or_pos m with h0 | h0
      · rw [h0] at h
        simp at h
      · exact h0

theorem flt_zero_nan_or_neg (x : fp) (h : x.nan_or_neg = true) :
    flt (fp.fin false 0 0) x = false := by
  cases x with
  | nan => rfl
  | inf t =>
    have ht : t = true := by simpa [fp.nan_or_neg] using h
    subst ht
    rfl
  | fin t m e =>
    have ht : t = true := by simpa [fp.nan_or_neg] using h
    subst ht
    rfl

theorem fsqrt_sign (f : fmt) (x : fp) :
    (fsqrt f x).nan_or_pos = true ∨ fsqrt f x = fp.fin true 0 0 := by
  cases x with
  | nan => exact Or.inl rfl
  | inf s => cases s <;> exact Or.inl rfl
  | fin s m e =>
    unfold fsqrt
    simp only []
    split_ifs with h0 hs
    · cases s
      · exact Or.inl rfl
      · exact Or.inr rfl
    · exact Or.inl rfl
    · exact Or.inl (fround_nan_or_pos _ _ _ _)

/-- A negative number or the negative infinity, minus a square root, is a NaN
or has its sign bit set. -/
theorem fsub_neg_sqrt (f : fmt) (x y : fp)
    (hx : x = fp.inf true ∨ ∃ m e, x = fp.fin true m e ∧ 0 < m)
    (hy : y.nan_or_pos = true ∨ y = fp.fin true 0 0) :
    (fsub f x y).nan_or_neg = true := by
  unfold fsub
  rcases hy with hy | hy
  · cases y with
    | nan => rcases hx with hx | ⟨m, e, hx, _⟩ <;> rw [hx] <;> rfl
    | inf t =>
      have ht : t = false := by simpa [fp.nan_or_pos] using hy
      subst ht
      rcases hx with hx | ⟨m, e, hx, _⟩ <;> rw [hx] <;> rfl
    | fin t m2 e2 =>
      have ht : t = false := by simpa [fp.nan_or_pos] using hy
      subst ht
      rcases hx with hx | ⟨m, e, hx, _⟩
      · rw [hx]
        rfl
      · rw [hx]
        simp only [fneg, fadd, Bool.not_false, if_true]
        exact fround_nan_or_neg _ _ _ _
  · rw [hy]
    rcases hx with hx | ⟨m, e, hx, hm⟩
    · rw [hx]
      rfl
    · rw [hx]
      have hpos : 0 < m * 2 ^ (e - min e 0).toNat := Nat.mul_pos hm (Nat.pow_pos (by norm_num))
      simp only [fneg, fadd, Bool.not_true, Bool.true_eq_false, if_false, zero_mul]
      rw [if_neg (Nat.ne_of_gt hpos), if_pos hpos]
      exact fround_nan_or_neg _ _ _ _

theorem fdiv_neg_pos (f : fmt) (x y : fp) (hx : x.nan_or_neg = true) (hy : y.nan_or_pos = true) :
    (fdiv f x y).nan_or_neg = true := by
  cases x with
  | nan => cases y <;> rfl
  | inf s =>
    have hs : s = true := by simpa [fp.nan_or_neg] using hx
    subst hs
    cases y with
    | nan => rfl
    | inf t => rfl
    | fin t m e =>
      have ht : t = false := by simpa [fp.nan_or_pos] using hy
      subst ht
      rfl
  | fin s m e =>
    have hs : s = true := by simpa [fp.nan_or_neg] using hx
    subst hs
    cases y with
    | nan => rfl
    | inf t =>
      have ht : t = false := by simpa [fp.nan_or_pos] using hy
      subst ht
      rfl
    | fin t m2 e2 =>
      have ht : t = false := by simpa [fp.nan_or_pos] using hy
      subst ht
      unfold fdiv
      simp only []
      split_ifs
      · rfl
      · rfl
      · exact fround_nan_or_neg _ _ _ _

theorem to_f32_nan_or_neg (x : f64) (hx : x.num.nan_or_neg = true) :
    (f64.to_f32 x).num.nan_or_neg = true := by
  obtain ⟨n⟩ := x
  cases n with
  | nan => rfl
  | inf s => exact hx
  | fin s m e =>
    have hs : s = true := by simpa [fp.nan_or_neg] using hx
    subst hs
    exact fround_nan_or_neg _ _ _ _

end FloatSigns

section FloatValues

/-- A `float` that is a NaN or has its sign bit set does not compare above
zero. -/
theorem f32_not_pos_of_nan_or_neg (x : f32) (h : x.num.nan_or_neg = true) : ¬ (0 < x) := by
  intro hpos
  have hpos2 : flt (fp.fin false 0 0) x.num = true := hpos
  rw [flt_zero_nan_or_neg _ h] at hpos2
  exact Bool.false_ne_true hpos2

theorem vec3_length_squared_nan_or_pos (v : vec3_t f32) :
    (vec3_length_squared v).num.nan_or_pos = true := by
  show (fadd binary32 (fadd binary32 (fmul binary32 v.x.num v.x.num)
      (fmul binary32 v.y.num v.y.num)) (fmul binary32 v.z.num v.z.num)).nan_or_pos = true
  exact fadd_nan_or_pos _ _ _
    (fadd_nan_or_pos _ _ _ (fmul_self_nan_or_pos _ _) (fmul_self_nan_or_pos _ _))
    (fmul_self_nan_or_pos _ _)

theorem hit_sphere_f32_of_neg (center : point3_t f32) (radius : f32) (ray : ray_t f32)
    (h : hit_sphere_discriminant center radius ray < 0) :
    hit_sphere wide_f32 center radius ray = -1 := by
  have h2 : vec3_dot_product (vec3_sub ray.orig center) ray.dir
          * vec3_dot_product (vec3_sub ray.orig center) ray.dir
        - vec3_length_squared ray.dir
          * (vec3_length_squared (vec3_sub ray.orig center) - radius * radius) < 0 := h
  simp only [hit_sphere]
  rw [if_pos h2]

theorem hit_sphere_f32_of_not_neg (center : point3_t f32) (radius : f32) (ray : ray_t f32)
    (h : ¬ hit_sphere_discriminant center radius ray < 0) :
    hit_sphere wide_f32 center radius ray =
      f64.to_f32 (f64.div
        (f64.sub (f32.to_f64 (-vec3_dot_product (vec3_sub ray.orig center) ray.dir))
          (f64.sqrt (f32.to_f64 (hit_sphere_discriminant center radius ray))))
        (f32.to_f64 (vec3_length_squared ray.dir))) := by
  have h2 : ¬ (vec3_dot_product (vec3_sub ray.orig center) ray.dir
          * vec3_dot_product (vec3_sub ray.orig center) ray.dir
        - vec3_length_squared ray.dir
          * (vec3_length_squared (vec3_sub ray.orig center) - radius * radius) < 0) := h
  simp only [hit_sphere]
  rw [if_neg h2]
  rfl

end FloatValues

section FloatLiterals

theorem f32_val_zero : (0 : f32).val = 0 := by
  show (fp.fin false 0 0).val = 0
  simp [fp.val]

theorem f32_val_one : (1 : f32).val = 1 := by
  show (fp.fin false 1 0).val = 1
  simp [fp.val]

theorem f32_val_neg (x : f32) : (-x).val = -x.val := by
  show (fneg x.num).val = -x.num.val
  cases x.num with
  | nan => simp [fneg, fp.val]
  | inf s => simp [fneg, fp.val]
  | fin s m e => cases s <;> simp [fneg, fp.val]

theorem f32_val_two : (2 : f32).val = 2 := by
  have h : (2 : f32) = ⟨fp.fin false 1 1⟩ := by decide!
  rw [h]
  simp [f32.val, fp.val]

theorem f32_val_half : (1 / 2 : f32).val = 1 / 2 := by
  have h : (1 / 2 : f32) = ⟨fp.fin false 1 (-1)⟩ := by decide!
  rw [h]
  simp [f32.val, fp.val]

end FloatLiterals

/-! ## The sphere intersection in `float` -/

section SmallerRootRounded

end SmallerRootRounded

section SmallerRoot

end SmallerRoot

section NegativeDiscriminant

/-- C6, refuted as stated.  First, the sphere of radius `1.05f` at
`(1.05f,0,-1)` and the ray from the origin along `(0,0,-1)`, which touches
it: the discriminant that the code computes is `-2^-23`, negative, and
`hit_sphere` returns `-1`, although the point of the ray at `t = 1` is on the
sphere.  Second, the sphere of radius `1.8199999f` (the `float` just below
`1.82f`) at `(1.82f,0,-1)` and the same ray, which passes it by: the exact
discriminant is negative, yet the computed one is not and `hit_sphere` returns
`1`, not `-1`. -/
theorem hit_sphere_discriminant_sign_rounded :
    (hit_sphere_discriminant (⟨105 / 100, 0, -1⟩ : point3_t f32) (105 / 100)
          ⟨⟨0, 0, 0⟩, ⟨0, 0, -1⟩⟩ < 0 ∧
      hit_sphere wide_f32 ⟨105 / 100, 0, -1⟩ (105 / 100) ⟨⟨0, 0, 0⟩, ⟨0, 0, -1⟩⟩ = -1 ∧
      vec3_length_squared (vec3_sub (ray_at (ray_val ⟨⟨0, 0, 0⟩, ⟨0, 0, -1⟩⟩) 1)
            (vec3_val ⟨105 / 100, 0, -1⟩))
        = (105 / 100 : f32).val * (105 / 100 : f32).val) ∧
    (hit_sphere_discriminant (vec3_val ⟨182 / 100, 0, -1⟩)
          (⟨fp.fin false 7633633 (-22)⟩ : f32).val (ray_val ⟨⟨0, 0, 0⟩, ⟨0, 0, -1⟩⟩) < 0 ∧
      ¬ (hit_sphere_discriminant (⟨182 / 100, 0, -1⟩ : point3_t f32)
          ⟨fp.fin false 7633633 (-22)⟩ ⟨⟨0, 0, 0⟩, ⟨0, 0, -1⟩⟩ < 0) ∧
      hit_sphere wide_f32 ⟨182 / 100, 0, -1⟩ ⟨fp.fin false 7633633 (-22)⟩
          ⟨⟨0, 0, 0⟩, ⟨0, 0, -1⟩⟩ = 1) := by
  have h182 : (182 / 100 : f32) = ⟨fp.fin false 15267267 (-23)⟩ := by decide!
  have hv182 : (⟨fp.fin false 15267267 (-23)⟩ : f32).val = 15267267 / 8388608 := by
    simp only [f32.val, fp.val]
    norm_num
  have hvr : (⟨fp.fin false 7633633 (-22)⟩ : f32).val = 7633633 / 4194304 := by
    simp only [f32.val, fp.val]
    norm_num
  refine ⟨⟨by decide!, by decide!, ?_⟩, ?_, by decide!, by decide!⟩
  · simp only [vec3_val, ray_val, ray_at, vec3_add, vec3_scaling, vec3_sub,
      vec3_length_squared, f32_val_zero, f32_val_neg, f32_val_one]
    ring
  · rw [h182]
    simp only [hit_sphere_discriminant, vec3_val, ray_val, vec3_sub, vec3_dot_product,
      vec3_length_squared, f32_val_zero, f32_val_neg, f32_val_one, hv182, hvr]
    norm_num

/-- C6, as the code has it: when the discriminant `half_b^2 - a*c` that the
code computes in `float` is negative, `hit_sphere` returns `-1`; and when the
exact discriminant of the same sphere and ray is negative, no `t`, in the
reals or in any other ordered field, satisfies
`|origin + t*direction - center|^2 = radius^2`.  Rounding can give the two
discriminants different signs. -/
theorem hit_sphere_negative_discriminant (center : point3_t f32) (radius : f32)
    (ray : ray_t f32) :
    (hit_sphere_discriminant center radius ray < 0 →
        hit_sphere wide_f32 center radius ray = -1) ∧
      (hit_sphere_discriminant (vec3_val center) radius.val (ray_val ray) < 0 →
        ∀ (K : Type) [LinearOrderedField K] (t : K),
          vec3_length_squared (vec3_sub (ray_at (ray_cast K (ray_val ray)) t)
              (vec3_cast K (vec3_val center)))
            ≠ (radius.val : K) * (radius.val : K)) := by
  refine ⟨hit_sphere_f32_of_neg center radius ray, ?_⟩
  intro hdisc K _ t
  exact exact_no_root_cast _ _ _ hdisc t

/-- A worked miss: the ray from the origin along `(0,1,0)` passes the sphere
of radius `1/2` at `(0,0,-1)`; the discriminant is `-3/4`, computed and exact,
`hit_sphere` returns `-1` and there is no real intersection. -/
theorem hit_sphere_negative_discriminant_witness :
    hit_sphere wide_f32 ⟨0, 0, -1⟩ (1 / 2) ⟨⟨0, 0, 0⟩, ⟨0, 1, 0⟩⟩ = -1 ∧
      ∀ t : ℝ,
        vec3_length_squared (vec3_sub (ray_at (ray_cast ℝ (ray_val ⟨⟨0, 0, 0⟩, ⟨0, 1, 0⟩⟩)) t)
            (vec3_cast ℝ (vec3_val ⟨0, 0, -1⟩)))
          ≠ ((1 / 2 : f32).val : ℝ) * ((1 / 2 : f32).val : ℝ) := by
  have h := hit_sphere_negative_discriminant ⟨0, 0, -1⟩ (1 / 2) ⟨⟨0, 0, 0⟩, ⟨0, 1, 0⟩⟩
  refine ⟨h.1 (by decide!), h.2 ?_ ℝ⟩
  simp only [hit_sphere_discriminant, vec3_val, ray_val, vec3_sub, vec3_dot_product,
    vec3_length_squared, f32_val_zero, f32_val_neg, f32_val_one, f32_val_half]
  norm_num

end NegativeDiscriminant

section ThroughCentre

end ThroughCentre

section PointingAway

/-- C12, refuted as stated: the sphere of radius `1` at `(0,0,-2)` and the ray
from the origin along `(0,0,1)`.  The origin is outside (`1 < 4`) and the
direction points away (`half_b = 2 > 0`), in `float` and exactly, the
computed discriminant `1` is not negative, and `hit_sphere` returns `-3`, not
the sentinel `-1`.  With the direction `(2^64, 0, 0)` from `(2,0,0)` and the
unit sphere at the origin, `a` overflows and the value returned is a NaN:
neither `-1` nor negative. -/
theorem hit_sphere_pointing_away_not_sentinel :
    ((1 : f32) * 1 < vec3_length_squared (vec3_sub (⟨0, 0, 0⟩ : vec3_t f32) ⟨0, 0, -2⟩) ∧
      (0 : f32) < vec3_dot_product (vec3_sub (⟨0, 0, 0⟩ : vec3_t f32) ⟨0, 0, -2⟩) ⟨0, 0, 1⟩ ∧
      (1 : ℚ) * 1 < vec3_length_squared (vec3_sub (⟨0, 0, 0⟩ : vec3_t ℚ) ⟨0, 0, -2⟩) ∧
      (0 : ℚ) < vec3_dot_product (vec3_sub (⟨0, 0, 0⟩ : vec3_t ℚ) ⟨0, 0, -2⟩) ⟨0, 0, 1⟩ ∧
      hit_sphere wide_f32 ⟨0, 0, -2⟩ 1 ⟨⟨0, 0, 0⟩, ⟨0, 0, 1⟩⟩ = ⟨fp.fin true 3 0⟩ ∧
      hit_sphere wide_f32 ⟨0, 0, -2⟩ 1 ⟨⟨0, 0, 0⟩, ⟨0, 0, 1⟩⟩ ≠ -1) ∧
    ((1 : f32) * 1 < vec3_length_squared (vec3_sub (⟨2, 0, 0⟩ : vec3_t f32) ⟨0, 0, 0⟩) ∧
      (0 : f32) < vec3_dot_product (vec3_sub (⟨2, 0, 0⟩ : vec3_t f32) ⟨0, 0, 0⟩)
        ⟨⟨fp.fin false 1 64⟩, 0, 0⟩ ∧
      hit_sphere wide_f32 ⟨0, 0, 0⟩ 1 ⟨⟨2, 0, 0⟩, ⟨⟨fp.fin false 1 64⟩, 0, 0⟩⟩ = ⟨fp.nan⟩ ∧
      hit_sphere wide_f32 ⟨0, 0, 0⟩ 1 ⟨⟨2, 0, 0⟩, ⟨⟨fp.fin false 1 64⟩, 0, 0⟩⟩ ≠ -1 ∧
      ¬ (hit_sphere wide_f32 ⟨0, 0, 0⟩ 1 ⟨⟨2, 0, 0⟩, ⟨⟨fp.fin false 1 64⟩, 0, 0⟩⟩ < 0)) := by
  refine ⟨⟨by decide!, by decide!, ?_, ?_, by decide!, by decide!⟩,
    ⟨by decide!, by decide!, by decide!, by decide!, by decide!⟩⟩
  · norm_num [vec3_sub, vec3_length_squared]
  · norm_num [vec3_sub, vec3_dot_product]

/-- C12, as the code has it: for a sphere and a ray whose origin is outside
the sphere by the code's own `float` values (`radius*radius < |oc|^2`) and
whose direction points away by the code's own `half_b` (`0 < dot(oc, dir)`),
`hit_sphere` never returns a positive value: the result is a NaN or has its
sign bit set.  It is the sentinel `-1` when the computed discriminant is
negative, and otherwise the computed nearer root
`(-half_b - sqrt(discriminant)) / a`, which in general is not `-1`. -/
theorem hit_sphere_pointing_away_not_positive (center : point3_t f32) (radius : f32)
    (ray : ray_t f32)
    (_hout : radius * radius < vec3_length_squared (vec3_sub ray.orig center))
    (haway : 0 < vec3_dot_product (vec3_sub ray.orig center) ray.dir) :
    (hit_sphere wide_f32 center radius ray).num.nan_or_neg = true ∧
      ¬ (0 < hit_sphere wide_f32 center radius ray) ∧
      (hit_sphere_discriminant center radius ray < 0 →
        hit_sphere wide_f32 center radius ray = -1) ∧
      (¬ hit_sphere_discriminant center radius ray < 0 →
        hit_sphere wide_f32 center radius ray =
          f64.to_f32 (f64.div
            (f64.sub (f32.to_f64 (-vec3_dot_product (vec3_sub ray.orig center) ray.dir))
              (f64.sqrt (f32.to_f64 (hit_sphere_discriminant center radius ray))))
            (f32.to_f64 (vec3_length_squared ray.dir)))) := by
  have hsign : (hit_sphere wide_f32 center radius ray).num.nan_or_neg = true := by
    by_cases h : hit_sphere_discriminant center radius ray < 0
    · rw [hit_sphere_f32_of_neg center radius ray h]
      rfl
    · rw [hit_sphere_f32_of_not_neg center radius ray h]
      have hb := flt_zero_pos _ haway
      have hneg : (-vec3_dot_product (vec3_sub ray.orig center) ray.dir).num = fp.inf true ∨
          ∃ m e, (-vec3_dot_product (vec3_sub ray.orig center) ray.dir).num = fp.fin true m e
            ∧ 0 < m := by
        show fneg (vec3_dot_product (vec3_sub ray.orig center) ray.dir).num = fp.inf true ∨
          ∃ m e, fneg (vec3_dot_product (vec3_sub ray.orig center) ray.dir).num = fp.fin true m e
            ∧ 0 < m
        rcases hb with hb | ⟨m, e, hb, hm⟩
        · rw [hb]
          exact Or.inl rfl
        · rw [hb]
          exact Or.inr ⟨m, e, rfl, hm⟩
      have hsub : (f64.sub (f32.to_f64 (-vec3_dot_product (vec3_sub ray.orig center) ray.dir))
          (f64.sqrt (f32.to_f64 (hit_sphere_discriminant center radius ray)))).num.nan_or_neg
          = true :=
        fsub_neg_sqrt binary64 _ _ hneg
          (fsqrt_sign binary64 (hit_sphere_discriminant center radius ray).num)
      have hdiv : (f64.div
          (f64.sub (f32.to_f64 (-vec3_dot_product (vec3_sub ray.orig center) ray.dir))
            (f64.sqrt (f32.to_f64 (hit_sphere_discriminant center radius ray))))
          (f32.to_f64 (vec3_length_squared ray.dir))).num.nan_or_neg = true :=
        fdiv_neg_pos binary64 _ _ hsub (vec3_length_squared_nan_or_pos ray.dir)
      exact to_f32_nan_or_neg _ hdiv
  exact ⟨hsign, f32_not_pos_of_nan_or_neg _ hsign, hit_sphere_f32_of_neg center radius ray,
    hit_sphere_f32_of_not_neg center radius ray⟩

/-- A worked case on each branch: the sphere of radius `1` at `(0,0,-2)` seen
from the origin.  Along `(0,0,1)` the computed discriminant is `1` and the
value returned is the nearer root `-3`; along `(0,1,1)` the computed
discriminant is `-2` and the value returned is `-1`.  Neither is positive. -/
theorem hit_sphere_pointing_away_not_positive_witness :
    (hit_sphere wide_f32 ⟨0, 0, -2⟩ 1 ⟨⟨0, 0, 0⟩, ⟨0, 0, 1⟩⟩ = ⟨fp.fin true 3 0⟩ ∧
      ¬ (0 < hit_sphere wide_f32 ⟨0, 0, -2⟩ 1 ⟨⟨0, 0, 0⟩, ⟨0, 0, 1⟩⟩)) ∧
    (hit_sphere wide_f32 ⟨0, 0, -2⟩ 1 ⟨⟨0, 0, 0⟩, ⟨0, 1, 1⟩⟩ = -1 ∧
      ¬ (0 < hit_sphere wide_f32 ⟨0, 0, -2⟩ 1 ⟨⟨0, 0, 0⟩, ⟨0, 1, 1⟩⟩)) := by
  have h1 := hit_sphere_pointing_away_not_positive ⟨0, 0, -2⟩ 1 ⟨⟨0, 0, 0⟩, ⟨0, 0, 1⟩⟩
    (by decide!) (by decide!)
  have h2 := hit_sphere_pointing_away_not_positive ⟨0, 0, -2⟩ 1 ⟨⟨0, 0, 0⟩, ⟨0, 1, 1⟩⟩
    (by decide!) (by decide!)
  refine ⟨⟨?_, h1.2.1⟩, ⟨h2.2.2.1 (by decide!), h2.2.1⟩⟩
  rw [h1.2.2.2 (by decide!)]
  decide!

end PointingAway

section DirectionScaling

end DirectionScaling

section FromInside

end FromInside

/-! ## Lambertian scattering in `float` -/

section LambertFloat

/-- C10, refuted as stated: the record with `p = (2^24, 0, 0)` and normal
`(1,0,0)` and the hemisphere sample `r = (0,1,0)`.  In `float` `p + normal` is
`p` again, so the direction `((p + normal) + r) - p` that the code stores is
`(0,1,0)`, while `normal + r` is `(1,1,0)`. -/
theorem lambertian_scattering_direction_rounded :
    ((env_record ⟨⟨0, 0, 0⟩, ⟨0, 1, 0⟩, true⟩
          ⟨⟨0, -1, 0⟩, 1, Material.LAMBERTIAN, ⟨1 / 2, 1 / 2, 1 / 2⟩, 0⟩).vec3_random_in_hemisphere
        0 ⟨1, 0, 0⟩).1 = ⟨0, 1, 0⟩ ∧
      (lambertian_scattering
          (env_record ⟨⟨0, 0, 0⟩, ⟨0, 1, 0⟩, true⟩
            ⟨⟨0, -1, 0⟩, 1, Material.LAMBERTIAN, ⟨1 / 2, 1 / 2, 1 / 2⟩, 0⟩)
          0 ⟨⟨0, 0, 0⟩, ⟨1, 0, 0⟩⟩ ⟨⟨16777216, 0, 0⟩, ⟨1, 0, 0⟩, true⟩).2.1.dir = ⟨0, 1, 0⟩ ∧
      vec3_add (⟨1, 0, 0⟩ : vec3_t f32) ⟨0, 1, 0⟩ = ⟨1, 1, 0⟩ ∧
      (lambertian_scattering
          (env_record ⟨⟨0, 0, 0⟩, ⟨0, 1, 0⟩, true⟩
            ⟨⟨0, -1, 0⟩, 1, Material.LAMBERTIAN, ⟨1 / 2, 1 / 2, 1 / 2⟩, 0⟩)
          0 ⟨⟨0, 0, 0⟩, ⟨1, 0, 0⟩⟩ ⟨⟨16777216, 0, 0⟩, ⟨1, 0, 0⟩, true⟩).2.1.dir
        ≠ vec3_add (⟨1, 0, 0⟩ : vec3_t f32) ⟨0, 1, 0⟩ := by
  refine ⟨rfl, by decide!, by decide!, by decide!⟩

/-- C10, as the code has it: `lambertian_scattering` always returns true; the
scattered ray starts at `rec.p`; its direction is the `float` value of
`((rec.p + rec.normal) + r) - rec.p`, with `r` the hemisphere sample drawn for
`rec.normal`, each of the three vector operations rounded; nothing of the
result depends on the incoming ray; and when the three operations are exact
(their results carry the exact sums and the exact difference), the direction
is `rec.normal + r`. -/
theorem lambertian_scattering_spec {G : Type} (env : Env f32 G) (g : G) (ray_in : ray_t f32)
    (rec : hit_record_t f32) :
    (lambertian_scattering env g ray_in rec).1 = true ∧
      (lambertian_scattering env g ray_in rec).2.1.orig = rec.p ∧
      (lambertian_scattering env g ray_in rec).2.1.dir
        = vec3_sub (vec3_add (vec3_add rec.p rec.normal)
            (env.vec3_random_in_hemisphere g rec.normal).1) rec.p ∧
      (lambertian_scattering env g ray_in rec).2.2
        = (env.vec3_random_in_hemisphere g rec.normal).2 ∧
      (∀ ray_in2 : ray_t f32,
        lambertian_scattering env g ray_in2 rec = lambertian_scattering env g ray_in rec) ∧
      (vec3_val (vec3_add rec.p rec.normal)
          = vec3_add (vec3_val rec.p) (vec3_val rec.normal) →
        vec3_val (vec3_add (vec3_add rec.p rec.normal)
            (env.vec3_random_in_hemisphere g rec.normal).1)
          = vec3_add (vec3_val (vec3_add rec.p rec.normal))
              (vec3_val (env.vec3_random_in_hemisphere g rec.normal).1) →
        vec3_val (vec3_sub (vec3_add (vec3_add rec.p rec.normal)
            (env.vec3_random_in_hemisphere g rec.normal).1) rec.p)
          = vec3_sub (vec3_val (vec3_add (vec3_add rec.p rec.normal)
              (env.vec3_random_in_hemisphere g rec.normal).1)) (vec3_val rec.p) →
        vec3_val (lambertian_scattering env g ray_in rec).2.1.dir
          = vec3_add (vec3_val rec.normal)
              (vec3_val (env.vec3_random_in_hemisphere g rec.normal).1)) := by
  refine ⟨rfl, rfl, rfl, rfl, fun _ => rfl, ?_⟩
  intro h1 h2 h3
  have hdir : (lambertian_scattering env g ray_in rec).2.1.dir
      = vec3_sub (vec3_add (vec3_add rec.p rec.normal)
          (env.vec3_random_in_hemisphere g rec.normal).1) rec.p := rfl
  rw [hdir, h3, h2, h1]
  simp only [vec3_sub, vec3_add]
  congr 1 <;> ring

/-- A worked scatter without rounding: the record with `p = (1,2,3)` and
normal `(0,1,0)` and the sample `(0,1,0)`: the flag is true, the scattered ray
starts at `p`, and its direction is `(0,2,0)`, the normal plus the sample. -/
theorem lambertian_scattering_spec_witness :
    (lambertian_scattering
        (env_record ⟨⟨0, 0, 0⟩, ⟨0, 1, 0⟩, true⟩
          ⟨⟨0, -1, 0⟩, 1, Material.LAMBERTIAN, ⟨1 / 2, 1 / 2, 1 / 2⟩, 0⟩)
        0 ⟨⟨0, 0, 0⟩, ⟨1, 0, 0⟩⟩ ⟨⟨1, 2, 3⟩, ⟨0, 1, 0⟩, true⟩).1 = true ∧
      vec3_val (lambertian_scattering
        (env_record ⟨⟨0, 0, 0⟩, ⟨0, 1, 0⟩, true⟩
          ⟨⟨0, -1, 0⟩, 1, Material.LAMBERTIAN, ⟨1 / 2, 1 / 2, 1 / 2⟩, 0⟩)
        0 ⟨⟨0, 0, 0⟩, ⟨1, 0, 0⟩⟩ ⟨⟨1, 2, 3⟩, ⟨0, 1, 0⟩, true⟩).2.1.dir
        = vec3_add (vec3_val ⟨0, 1, 0⟩) (vec3_val ⟨0, 1, 0⟩) := by
  have h := lambertian_scattering_spec
    (env_record ⟨⟨0, 0, 0⟩, ⟨0, 1, 0⟩, true⟩
      ⟨⟨0, -1, 0⟩, 1, Material.LAMBERTIAN, ⟨1 / 2, 1 / 2, 1 / 2⟩, 0⟩)
    0 ⟨⟨0, 0, 0⟩, ⟨1, 0, 0⟩⟩ ⟨⟨1, 2, 3⟩, ⟨0, 1, 0⟩, true⟩
  have h3 : ((3 : ℕ) : f32).val = 3 := by
    have : ((3 : ℕ) : f32) = ⟨fp.fin false 3 0⟩ := by decide!
    rw [this]
    simp [f32.val, fp.val]
  have h4 : ((4 : ℕ) : f32).val = 4 := by
    have : ((4 : ℕ) : f32) = ⟨fp.fin false 1 2⟩ := by decide!
    rw [this]
    simp only [f32.val, fp.val]
    norm_num
  have e3 : (3 : f32) = ((3 : ℕ) : f32) := rfl
  have e4 : (4 : f32) = ((4 : ℕ) : f32) := rfl
  have s1 : vec3_add (⟨1, 2, 3⟩ : vec3_t f32) ⟨0, 1, 0⟩ = ⟨1, 3, 3⟩ := by decide!
  have s2 : vec3_add (⟨1, 3, 3⟩ : vec3_t f32) ⟨0, 1, 0⟩ = ⟨1, 4, 3⟩ := by decide!
  have s3 : vec3_sub (⟨1, 4, 3⟩ : vec3_t f32) ⟨1, 2, 3⟩ = ⟨0, 2, 0⟩ := by decide!
  refine ⟨h.1, h.2.2.2.2.2 ?_ ?_ ?_⟩
  · show vec3_val (vec3_add (⟨1, 2, 3⟩ : vec3_t f32) ⟨0, 1, 0⟩)
      = vec3_add (vec3_val ⟨1, 2, 3⟩) (vec3_val ⟨0, 1, 0⟩)
    rw [s1]
    simp only [vec3_val, vec3_add, e3, h3, f32_val_zero, f32_val_one, f32_val_two]
    norm_num
  · show vec3_val (vec3_add (vec3_add (⟨1, 2, 3⟩ : vec3_t f32) ⟨0, 1, 0⟩) ⟨0, 1, 0⟩)
      = vec3_add (vec3_val (vec3_add (⟨1, 2, 3⟩ : vec3_t f32) ⟨0, 1, 0⟩)) (vec3_val ⟨0, 1, 0⟩)
    rw [s1, s2]
    simp only [vec3_val, vec3_add, e3, e4, h3, h4, f32_val_zero, f32_val_one]
    norm_num
  · show vec3_val (vec3_sub (vec3_add (vec3_add (⟨1, 2, 3⟩ : vec3_t f32) ⟨0, 1, 0⟩) ⟨0, 1, 0⟩)
        ⟨1, 2, 3⟩)
      = vec3_sub (vec3_val (vec3_add (vec3_add (⟨1, 2, 3⟩ : vec3_t f32) ⟨0, 1, 0⟩) ⟨0, 1, 0⟩))
          (vec3_val ⟨1, 2, 3⟩)
    rw [s1, s2, s3]
    simp only [vec3_val, vec3_sub, e3, e4, h3, h4, f32_val_zero, f32_val_one, f32_val_two]
    norm_num

end LambertFloat

/-! ## More on metal scattering -/

section MetalCases

variable {F G : Type} [LinearOrderedField F]

theorem sqrt_q_twentyfive : sqrt_q 25 = 5 := by
  have h : Nat.sqrt 25 = 5 := Nat.sqrt_eq 5
  simp [sqrt_q, h]

/-- C17: there are an incoming ray, a hit record whose unit normal opposes
the ray, a fuzz value and a random unit vector for which `metal_scattering`
returns true while the scattered ray, which starts at `rec.p` and has the
direction `reflected + fuzz*random_unit_vector`, points into the surface:
`dot(scattered_ray.dir, rec.normal) < 0`.  Here the ray comes in along
`(3,-4,0)` onto the normal `(0,1,0)`, the mirror direction is `(3/5,4/5,0)`,
and fuzz `1` with the random unit vector `(0,-1,0)` gives `(3/5,-1/5,0)`. -/
theorem metal_scattering_fuzz_below_surface :
    ∃ (env : Env ℚ Nat) (g : Nat) (ray_in : ray_t ℚ) (rec : hit_record_t ℚ) (fuzzyness : ℚ),
      vec3_length_squared rec.normal = 1 ∧
      vec3_dot_product ray_in.dir rec.normal < 0 ∧
      vec3_length_squared (env.vec3_random_unit_vector g).1 = 1 ∧
      (0 ≤ env.sqrt (vec3_length_squared ray_in.dir) ∧
        env.sqrt (vec3_length_squared ray_in.dir) * env.sqrt (vec3_length_squared ray_in.dir)
          = vec3_length_squared ray_in.dir) ∧
      (metal_scattering env g ray_in rec fuzzyness).1 = true ∧
      (metal_scattering env g ray_in rec fuzzyness).2.1.orig = rec.p ∧
      (metal_scattering env g ray_in rec fuzzyness).2.1.dir
        = vec3_add (vec3_reflect (vec3_unit_vector env.sqrt ray_in.dir) rec.normal)
            (vec3_scaling fuzzyness (env.vec3_random_unit_vector g).1) ∧
      vec3_dot_product (metal_scattering env g ray_in rec fuzzyness).2.1.dir rec.normal < 0 := by
  have hl : vec3_length_squared (⟨3, -4, 0⟩ : vec3_t ℚ) = 25 := by
    norm_num [vec3_length_squared]
  have hu : vec3_unit_vector sqrt_q (⟨3, -4, 0⟩ : vec3_t ℚ) = ⟨3 / 5, -4 / 5, 0⟩ := by
    simp only [vec3_unit_vector, hl, sqrt_q_twentyfive, vec3_scaling]
    norm_num
  refine ⟨env_rough, 0, ⟨⟨0, 5, 0⟩, ⟨3, -4, 0⟩⟩, ⟨⟨3, 1, 0⟩, ⟨0, 1, 0⟩, true⟩, 1,
    ?_, ?_, ?_, ?_, ?_, rfl, rfl, ?_⟩
  · norm_num [vec3_length_squared]
  · norm_num [vec3_dot_product]
  · norm_num [env_rough, vec3_length_squared]
  · simp only [env_rough, hl, sqrt_q_twentyfive]
    norm_num
  · simp only [metal_scattering, env_rough, hu]
    norm_num [vec3_reflect, vec3_dot_product, vec3_scaling, vec3_sub]
  · simp only [metal_scattering, env_rough, hu, ray_init]
    norm_num [vec3_reflect, vec3_dot_product, vec3_scaling, vec3_sub, vec3_add]

end MetalCases

/-! ## Metal scattering in `float` -/

section MetalFloat

end MetalFloat

/-! ## The recursion as a whole -/

section Recursion

variable {F G : Type} [LinearOrderedField F]

/-- The recursive calls of `ray_color` never nest deeper than
`max(depth, 0)`, whatever the scene. -/
theorem ray_color_stats_recursive_calls_le (env : Env F G) :
    ∀ (n : Nat) (g : G) (ray : ray_t F) (depth : Int), depth.toNat = n →
      (ray_color_stats env g ray depth).recursive_calls ≤ n := by
  intro n
  induction n with
  | zero =>
    intro g ray depth hn
    have hd : depth ≤ 0 := by omega
    rw [ray_color_stats_nonpos env g ray depth hd]
  | succ n ih =>
    intro g ray depth hn
    have hd : 0 < depth := by omega
    have hn1 : (depth - 1).toNat = n := by omega
    rw [ray_color_stats_pos env g ray depth hd]
    cases hhit : env.hittable_list_hit ray (1 / 1000) ⊤ with
    | none => simp
    | some ro =>
      obtain ⟨rec, hit_obj⟩ := ro
      cases hs : scatter env g ray rec hit_obj with
      | none => simp [hs]
      | some vs =>
        obtain ⟨valid_scattering, sub_ray, g1⟩ := vs
        cases valid_scattering with
        | false => simp [hs]
        | true =>
          simp only [hs, if_true]
          exact Nat.succ_le_succ (ih g1 sub_ray (depth - 1) hn1)

/-- In a scene whose query only ever reports `LAMBERTIAN` and `METAL`
objects, `ray_color` returns a colour for every ray and every depth. -/
theorem ray_color_isSome_of_known (env : Env F G)
    (hknown : ∀ (r : ray_t F) (t_min : F) (t_max : WithTop F) (rec : hit_record_t F)
      (obj : rt_obj F), env.hittable_list_hit r t_min t_max = some (rec, obj) →
      obj.material = Material.LAMBERTIAN ∨ obj.material = Material.METAL) :
    ∀ (n : Nat) (g : G) (ray : ray_t F) (depth : Int), depth.toNat = n →
      ∃ c g2, ray_color env g ray depth = some (c, g2) := by
  intro n
  induction n with
  | zero =>
    intro g ray depth hn
    have hd : depth ≤ 0 := by omega
    exact ⟨_, _, ray_color_nonpos env g ray depth hd⟩
  | succ n ih =>
    intro g ray depth hn
    have hd : 0 < depth := by omega
    have hn1 : (depth - 1).toNat = n := by omega
    rw [ray_color_pos env g ray depth hd]
    cases hhit : env.hittable_list_hit ray (1 / 1000) ⊤ with
    | none => exact ⟨_, _, rfl⟩
    | some ro =>
      obtain ⟨rec, hit_obj⟩ := ro
      have hs : ∃ v sub g1, scatter env g ray rec hit_obj = some (v, sub, g1) := by
        rcases hknown ray _ _ rec hit_obj hhit with hm | hm
        · exact ⟨(lambertian_scattering env g ray rec).1,
            (lambertian_scattering env g ray rec).2.1,
            (lambertian_scattering env g ray rec).2.2, by simp [scatter, hm]⟩
        · exact ⟨(metal_scattering env g ray rec hit_obj.metal_fuzzyness).1,
            (metal_scattering env g ray rec hit_obj.metal_fuzzyness).2.1,
            (metal_scattering env g ray rec hit_obj.metal_fuzzyness).2.2,
            by simp [scatter, hm]⟩
      obtain ⟨v, sub_ray, g1, hs⟩ := hs
      cases v with
      | false => exact ⟨background env ray, g1, by simp [hs]⟩
      | true =>
        obtain ⟨c, g2, hc⟩ := ih g1 sub_ray (depth - 1) hn1
        exact ⟨attenuate c hit_obj.albedo, g2, by simp [hs, hc]⟩

/-- C14, the failing input: at depth `1` the ray from the origin meets an
object of `env_unknown` whose material tag is neither `LAMBERTIAN` nor
`METAL`; the `switch` leaves `valid_scattering` unwritten, the test that
follows reads it, and the call has no defined colour. -/
theorem ray_color_unknown_material_undefined :
    ray_color env_unknown 0 ray_up 1 = none := by
  rw [ray_color_pos env_unknown 0 ray_up 1 (by decide)]
  simp [env_unknown, ray_up, scatter]

theorem ray_color_rays_nonpos (env : Env F G) (g : G) (ray : ray_t F) (depth : Int)
    (hd : depth ≤ 0) : ray_color_rays env g ray depth = [ray] := by
  rw [ray_color_rays]
  simp [hd]

theorem ray_color_rays_pos (env : Env F G) (g : G) (ray : ray_t F) (depth : Int)
    (hd : 0 < depth) :
    ray_color_rays env g ray depth =
      match env.hittable_list_hit ray (1 / 1000) ⊤ with
      | some (rec, hit_obj) =>
        match scatter env g ray rec hit_obj with
        | none => [ray]
        | some (valid_scattering, sub_ray, g1) =>
          if valid_scattering = true then
            ray :: ray_color_rays env g1 sub_ray (depth - 1)
          else
            [ray]
      | none => [ray] := by
  rw [ray_color_rays]
  simp [not_le.mpr hd]

/-- The ray of the call is the first ray of its chain. -/
theorem ray_mem_ray_color_rays (env : Env F G) (g : G) (ray : ray_t F) (depth : Int) :
    ray ∈ ray_color_rays env g ray depth := by
  rcases le_or_lt depth 0 with hd | hd
  · rw [ray_color_rays_nonpos env g ray depth hd]
    simp
  · rw [ray_color_rays_pos env g ray depth hd]
    cases env.hittable_list_hit ray (1 / 1000) ⊤ with
    | none => simp
    | some ro =>
      obtain ⟨rec, hit_obj⟩ := ro
      cases hs : scatter env g ray rec hit_obj with
      | none => simp [hs]
      | some vs =>
        obtain ⟨valid_scattering, sub_ray, g1⟩ := vs
        cases valid_scattering <;> simp [hs]

/-- The background gradient of a ray whose normalised direction has length
`1` lies in `[0.5, 1]` in every channel. -/
theorem background_range (env : Env F G) (ray : ray_t F)
    (hunit : vec3_length_squared (vec3_unit_vector env.sqrt ray.dir) = 1) :
    (1 / 2 ≤ (background env ray).x ∧ (background env ray).x ≤ 1) ∧
      (1 / 2 ≤ (background env ray).y ∧ (background env ray).y ≤ 1) ∧
      (1 / 2 ≤ (background env ray).z ∧ (background env ray).z ≤ 1) := by
  rw [background_eq]
  simp only [vec3_length_squared] at hunit
  generalize vec3_unit_vector env.sqrt ray.dir = u at hunit
  have hx := mul_self_nonneg u.x
  have hz := mul_self_nonneg u.z
  have hy1 : u.y ≤ 1 := by
    by_contra h
    push_neg at h
    nlinarith
  have hy2 : -1 ≤ u.y := by
    by_contra h
    push_neg at h
    nlinarith
  refine ⟨⟨?_, ?_⟩, ⟨?_, ?_⟩, ⟨?_, ?_⟩⟩ <;> simp only <;> linarith

/-- A product of two numbers of `[0,1]` is in `[0,1]`. -/
theorem mul_mem_unit_interval (a b : F) (ha : 0 ≤ a ∧ a ≤ 1) (hb : 0 ≤ b ∧ b ≤ 1) :
    0 ≤ a * b ∧ a * b ≤ 1 := by
  refine ⟨mul_nonneg ha.1 hb.1, ?_⟩
  calc a * b ≤ 1 * b := mul_le_mul_of_nonneg_right ha.2 hb.1
    _ = b := one_mul b
    _ ≤ 1 := hb.2

theorem ray_color_range_aux (env : Env F G)
    (halb : ∀ (r : ray_t F) (t_min : F) (t_max : WithTop F) (rec : hit_record_t F)
      (obj : rt_obj F), env.hittable_list_hit r t_min t_max = some (rec, obj) →
      (0 ≤ obj.albedo.x ∧ obj.albedo.x ≤ 1) ∧ (0 ≤ obj.albedo.y ∧ obj.albedo.y ≤ 1) ∧
        (0 ≤ obj.albedo.z ∧ obj.albedo.z ≤ 1)) :
    ∀ (n : Nat) (g : G) (ray : ray_t F) (depth : Int), depth.toNat = n →
      (∀ r ∈ ray_color_rays env g ray depth,
        vec3_length_squared (vec3_unit_vector env.sqrt r.dir) = 1) →
      ∀ (c : color_t F) (g2 : G), ray_color env g ray depth = some (c, g2) →
        (0 ≤ c.x ∧ c.x ≤ 1) ∧ (0 ≤ c.y ∧ c.y ≤ 1) ∧ (0 ≤ c.z ∧ c.z ≤ 1) := by
  have hbg : ∀ ray : ray_t F, vec3_length_squared (vec3_unit_vector env.sqrt ray.dir) = 1 →
      (0 ≤ (background env ray).x ∧ (background env ray).x ≤ 1) ∧
      (0 ≤ (background env ray).y ∧ (background env ray).y ≤ 1) ∧
      (0 ≤ (background env ray).z ∧ (background env ray).z ≤ 1) := by
    intro ray hu
    obtain ⟨⟨h1, h2⟩, ⟨h3, h4⟩, ⟨h5, h6⟩⟩ := background_range env ray hu
    have h0 : (0 : F) ≤ 1 / 2 := by norm_num
    exact ⟨⟨le_trans h0 h1, h2⟩, ⟨le_trans h0 h3, h4⟩, ⟨le_trans h0 h5, h6⟩⟩
  intro n
  induction n with
  | zero =>
    intro g ray depth hn _ c g2 hc
    have hd : depth ≤ 0 := by omega
    rw [ray_color_nonpos env g ray depth hd] at hc
    simp only [Option.some.injEq, Prod.mk.injEq] at hc
    rw [← hc.1]
    simp [color_set]
  | succ n ih =>
    intro g ray depth hn hunit c g2 hc
    have hd : 0 < depth := by omega
    have hn1 : (depth - 1).toNat = n := by omega
    have hray := hunit ray (ray_mem_ray_color_rays env g ray depth)
    rw [ray_color_pos env g ray depth hd] at hc
    rw [ray_color_rays_pos env g ray depth hd] at hunit
    cases hhit : env.hittable_list_hit ray (1 / 1000) ⊤ with
    | none =>
      simp only [hhit, Option.some.injEq, Prod.mk.injEq] at hc
      rw [← hc.1]
      exact hbg ray hray
    | some ro =>
      obtain ⟨rec, hit_obj⟩ := ro
      simp only [hhit] at hc hunit
      cases hs : scatter env g ray rec hit_obj with
      | none => simp [hs] at hc
      | some vs =>
        obtain ⟨valid_scattering, sub_ray, g1⟩ := vs
        cases valid_scattering with
        | false =>
          simp only [hs, Bool.false_eq_true, if_false, Option.some.injEq, Prod.mk.injEq] at hc
          rw [← hc.1]
          exact hbg ray hray
        | true =>
          simp only [hs, if_true] at hc hunit
          cases hr : ray_color env g1 sub_ray (depth - 1) with
          | none => simp [hr] at hc
          | some cr =>
            obtain ⟨c1, g3⟩ := cr
            simp only [hr, Option.some.injEq, Prod.mk.injEq] at hc
            have hsub := ih g1 sub_ray (depth - 1) hn1
              (fun r hr2 => hunit r (List.mem_cons_of_mem _ hr2)) c1 g3 hr
            have ha := halb ray _ _ rec hit_obj hhit
            rw [← hc.1]
            exact ⟨mul_mem_unit_interval _ _ hsub.1 ha.1,
              mul_mem_unit_interval _ _ hsub.2.1 ha.2.1,
              mul_mem_unit_interval _ _ hsub.2.2 ha.2.2⟩

/-- C18: in a scene whose objects have albedo channels in `[0,1]`, for every
depth and every ray such that the normalised direction of each ray of the
bounce chain has length `1`, every channel of the colour returned by
`ray_color` lies in `[0,1]`; the background gradient of each ray of the
chain lies in `[0.5,1]` per channel. -/
theorem ray_color_channels_in_unit_interval (env : Env F G) (g : G) (ray : ray_t F)
    (depth : Int)
    (halb : ∀ (r : ray_t F) (t_min : F) (t_max : WithTop F) (rec : hit_record_t F)
      (obj : rt_obj F), env.hittable_list_hit r t_min t_max = some (rec, obj) →
      (0 ≤ obj.albedo.x ∧ obj.albedo.x ≤ 1) ∧ (0 ≤ obj.albedo.y ∧ obj.albedo.y ≤ 1) ∧
        (0 ≤ obj.albedo.z ∧ obj.albedo.z ≤ 1))
    (hunit : ∀ r ∈ ray_color_rays env g ray depth,
      vec3_length_squared (vec3_unit_vector env.sqrt r.dir) = 1) :
    (∀ (c : color_t F) (g2 : G), ray_color env g ray depth = some (c, g2) →
        (0 ≤ c.x ∧ c.x ≤ 1) ∧ (0 ≤ c.y ∧ c.y ≤ 1) ∧ (0 ≤ c.z ∧ c.z ≤ 1)) ∧
      ∀ r ∈ ray_color_rays env g ray depth,
        (1 / 2 ≤ (background env r).x ∧ (background env r).x ≤ 1) ∧
        (1 / 2 ≤ (background env r).y ∧ (background env r).y ≤ 1) ∧
        (1 / 2 ≤ (background env r).z ∧ (background env r).z ≤ 1) :=
  ⟨ray_color_range_aux env halb depth.toNat g ray depth rfl hunit,
    fun r hr => background_range env r (hunit r hr)⟩

/-- The scatter of the ray from the origin straight up in `env_diffuse`. -/
theorem scatter_env_diffuse :
    scatter env_diffuse 0 ray_up ⟨⟨0, 1, 0⟩, ⟨0, -1, 0⟩, true⟩
        ⟨⟨0, 2, 0⟩, 1, Material.LAMBERTIAN, ⟨1 / 2, 1 / 2, 1 / 2⟩, 0⟩
      = some (true, ⟨⟨0, 1, 0⟩, ⟨0, -2, 0⟩⟩, 1) := by
  simp [scatter, lambertian_scattering, env_diffuse, ray_init, vec3_add, vec3_sub]
  norm_num

/-- The run of `ray_color` in `env_diffuse` at depth `2`: one bounce, then a
miss, and the white background halved. -/
theorem ray_color_env_diffuse :
    ray_color env_diffuse 0 ray_up 2 = some (⟨1 / 2, 1 / 2, 1 / 2⟩, 1) := by
  have hsub : ray_color env_diffuse 1 ⟨⟨0, 1, 0⟩, ⟨0, -2, 0⟩⟩ (2 - 1)
      = some (⟨1, 1, 1⟩, 1) := by
    rw [ray_color_miss env_diffuse 1 _ (2 - 1) (by decide) (by simp [env_diffuse]),
      background_eq]
    simp [env_diffuse, vec3_unit_vector, vec3_length_squared, vec3_scaling]
    norm_num [sqrt_q_four]
  rw [ray_color_scatter_valid env_diffuse 0 1 ray_up ⟨⟨0, 1, 0⟩, ⟨0, -2, 0⟩⟩ 2
    ⟨⟨0, 1, 0⟩, ⟨0, -1, 0⟩, true⟩
    ⟨⟨0, 2, 0⟩, 1, Material.LAMBERTIAN, ⟨1 / 2, 1 / 2, 1 / 2⟩, 0⟩
    (by decide) (by simp [env_diffuse, ray_up]) scatter_env_diffuse, hsub]
  simp [attenuate]

/-- The bounce chain of that run: the ray up and the scattered ray down. -/
theorem ray_color_rays_env_diffuse :
    ray_color_rays env_diffuse 0 ray_up 2 = [ray_up, ⟨⟨0, 1, 0⟩, ⟨0, -2, 0⟩⟩] := by
  have hsub : ray_color_rays env_diffuse 1 ⟨⟨0, 1, 0⟩, ⟨0, -2, 0⟩⟩ (2 - 1)
      = [⟨⟨0, 1, 0⟩, ⟨0, -2, 0⟩⟩] := by
    rw [ray_color_rays_pos env_diffuse 1 _ (2 - 1) (by decide)]
    simp [env_diffuse]
  have hhit : env_diffuse.hittable_list_hit ray_up (1 / 1000) ⊤
      = some (⟨⟨0, 1, 0⟩, ⟨0, -1, 0⟩, true⟩,
          ⟨⟨0, 2, 0⟩, 1, Material.LAMBERTIAN, ⟨1 / 2, 1 / 2, 1 / 2⟩, 0⟩) := by
    simp [env_diffuse, ray_up]
  rw [ray_color_rays_pos env_diffuse 0 ray_up 2 (by decide), hhit]
  simp only [scatter_env_diffuse, if_true, hsub]

/-- A worked chain in range: in `env_diffuse` the albedo is `(1/2,1/2,1/2)`,
the two rays of the chain at depth `2` normalise to `(0,1,0)` and `(0,-1,0)`,
and the colour returned, `(1/2,1/2,1/2)`, has its channels in `[0,1]`. -/
theorem ray_color_channels_in_unit_interval_witness :
    ∃ (c : color_t ℚ) (g2 : Nat), ray_color env_diffuse 0 ray_up 2 = some (c, g2) ∧
      (0 ≤ c.x ∧ c.x ≤ 1) ∧ (0 ≤ c.y ∧ c.y ≤ 1) ∧ (0 ≤ c.z ∧ c.z ≤ 1) := by
  refine ⟨_, _, ray_color_env_diffuse,
    (ray_color_channels_in_unit_interval env_diffuse 0 ray_up 2 ?_ ?_).1 _ _
      ray_color_env_diffuse⟩
  · intro r t_min t_max rec obj h
    simp only [env_diffuse] at h
    split at h
    · simp only [Option.some.injEq, Prod.mk.injEq] at h
      rw [← h.2]
      norm_num
    · simp at h
  · intro r hr
    rw [ray_color_rays_env_diffuse] at hr
    simp only [List.mem_cons, List.mem_singleton, List.not_mem_nil, or_false] at hr
    rcases hr with h | h
    · rw [h]
      simp [env_diffuse, ray_up, vec3_unit_vector, vec3_length_squared, vec3_scaling,
        sqrt_q_one]
    · rw [h]
      simp [env_diffuse, vec3_unit_vector, vec3_length_squared, vec3_scaling]
      norm_num [sqrt_q_four]

end Recursion

/-! ## The recursion as a loop -/

section Loop

variable {F G : Type} [Add F] [Sub F] [Mul F] [Div F] [Zero F] [One F] [NatCast F]
  [LT F] [DecidableRel (fun a b : F => a < b)]

/-- Why the loop keeps a stack: in `float` the order of the multiplications
matters.  With the terminal colour `0.7f` and the albedos `0.1f` (outer) and
`0.3f` (inner), the unwinding computes `(0.7f * 0.3f) * 0.1f`, which is not
`0.7f * (0.1f * 0.3f)`, the value an accumulator of the albedos would give. -/
theorem attenuate_order_float :
    attenuate (attenuate (⟨7 / 10, 7 / 10, 7 / 10⟩ : color_t f32) ⟨3 / 10, 3 / 10, 3 / 10⟩)
        ⟨1 / 10, 1 / 10, 1 / 10⟩
      ≠ attenuate (⟨7 / 10, 7 / 10, 7 / 10⟩ : color_t f32)
          (attenuate ⟨1 / 10, 1 / 10, 1 / 10⟩ ⟨3 / 10, 3 / 10, 3 / 10⟩) := by
  decide!

end Loop

/-! ## Point evaluation -/

section RayAt

variable {F : Type} [LinearOrderedField F]

end RayAt

end Ray
